import Mathlib

/-!
Verification of the container-registry proxy (EdgeOne Pages Functions).

The repository ships two handler variants inside `src/functions/[[path]].js`:
a single-registry Docker Hub proxy (`proxyDockerRequest`, with the
`handleRequest` router of that variant) and a multi-registry proxy
(`getUpstreamInfo`, `handleAuth`, `proxyRequest`, and its `handleRequest`
router).  JavaScript strings are modelled as `List Char`; the `Headers`
object is modelled as an ordered association list with case-insensitive
keys; `fetch` outcomes are passed in as an `Except` value (an `error`
models a thrown network failure), so each handler consumes exactly one
upstream fetch result.
-/

set_option maxRecDepth 4000

namespace DockerProxy

/-- Characters of a JavaScript string. -/
abbrev JStr := List Char

/-- JavaScript `Array.prototype.indexOf` over arrays of strings; `none`
stands for the JavaScript result `-1`. -/
def jsIndexOf (x : JStr) : List JStr → Option Nat
  | [] => none
  | y :: ys => if y = x then some 0 else (jsIndexOf x ys).map (· + 1)

/-- JavaScript `String.prototype.split` at a single separator character.
Splitting never yields an empty array: the empty string splits to `[""]`. -/
def splitOnChar (sep : Char) : JStr → List JStr
  | [] => [[]]
  | c :: cs =>
    if c = sep then [] :: splitOnChar sep cs
    else
      match splitOnChar sep cs with
      | [] => [[c]]
      | p :: ps => (c :: p) :: ps

/-- JavaScript `Array.prototype.join` with a one-character separator. -/
def joinChar (sep : Char) : List JStr → JStr
  | [] => []
  | [x] => x
  | x :: xs => x ++ sep :: joinChar sep xs

/-- JavaScript `String.prototype.includes`. -/
def containsSub (s sub : JStr) : Bool := decide (sub <:+: s)

/-- JavaScript `String.prototype.replace` with a plain-string pattern:
only the first occurrence is replaced; an empty pattern matches at
position 0. -/
def replaceFirst (pat rep : JStr) : JStr → JStr
  | [] => if pat = [] then rep else []
  | c :: cs =>
    if pat.isPrefixOf (c :: cs) then rep ++ (c :: cs).drop pat.length
    else c :: replaceFirst pat rep cs

/-- JavaScript `String.prototype.toLowerCase` restricted to ASCII header
names. -/
def lowerStr (s : JStr) : JStr := s.map Char.toLower

/-- Headers object: ordered list of name/value pairs, names compared
case-insensitively. -/
abbrev Headers := List (JStr × JStr)

/-- `Headers.prototype.get`: value of the first case-insensitive match. -/
def hGet (h : Headers) (k : JStr) : Option JStr :=
  (h.find? (fun p => lowerStr p.1 == lowerStr k)).map (·.2)

/-- `Headers.prototype.has`. -/
def hHas (h : Headers) (k : JStr) : Bool := (hGet h k).isSome

/-- `Headers.prototype.set`: replace the value in place when the name is
already present, append otherwise. -/
def hSet (h : Headers) (k v : JStr) : Headers :=
  if h.any (fun p => lowerStr p.1 == lowerStr k) then
    h.map (fun p => if lowerStr p.1 == lowerStr k then (p.1, v) else p)
  else h ++ [(k, v)]

/-- The fixed CORS header set returned by `getCORSHeaders()` in the
multi-registry variant. -/
def CORS_HEADERS : Headers :=
  [("Access-Control-Allow-Origin".data, "*".data),
   ("Access-Control-Allow-Methods".data, "GET, HEAD, POST, PUT, DELETE, OPTIONS".data),
   ("Access-Control-Allow-Headers".data,
    "Authorization, Content-Type, Docker-Content-Digest, Docker-Distribution-Api-Version, Accept, Accept-Encoding".data),
   ("Access-Control-Expose-Headers".data,
    "Docker-Content-Digest, Docker-Distribution-Api-Version, Www-Authenticate, Location, Content-Length, Content-Type".data),
   ("Access-Control-Max-Age".data, "86400".data)]

/-- Overlay the CORS headers onto a response header set by repeated
`set`, as both proxy handlers do after copying the upstream headers. -/
def overlayCORS (h : Headers) : Headers :=
  CORS_HEADERS.foldl (fun acc p => hSet acc p.1 p.2) h

/-- Header names dropped by `proxyDockerRequest` when copying the inbound
headers (source `[[path]].js`, single-registry variant, lines 56-61). -/
def EXCLUDED_HUB : List JStr :=
  ["host".data, "origin".data, "referer".data,
   "cf-ray".data, "cf-connecting-ip".data, "cf-visitor".data]

/-- Copy loop of `proxyDockerRequest` (single-registry variant,
lines 56-61): `set` every inbound header whose lowercased name is not
excluded into a fresh `Headers`. -/
def hubCopyHeaders (inbound : Headers) : Headers :=
  inbound.foldl
    (fun acc p => if EXCLUDED_HUB.contains (lowerStr p.1) then acc else hSet acc p.1 p.2) []

/-- `User-Agent` defaulting of `proxyDockerRequest` (lines 66-69): set
the fixed default only when the header is absent. -/
def hubDefaultUA (h : Headers) : Headers :=
  if hHas h ("User-Agent".data) then h
  else hSet h ("User-Agent".data) ("Docker/20.10.0 (linux)".data)

/-- Outbound header construction of `proxyDockerRequest` (single-registry
variant, lines 53-69): copy all inbound headers except the excluded set,
force `Host`, and default `User-Agent` only when absent. -/
def buildProxyHeadersHub (inbound : Headers) : Headers :=
  hubDefaultUA (hSet (hubCopyHeaders inbound) ("Host".data) ("registry-1.docker.io".data))

/-- Outbound header construction of the multi-registry `proxyRequest`
(lines 415-417): copy all inbound headers, then force `Host` and
unconditionally force `User-Agent`. -/
def buildProxyHeadersMulti (upstreamHost : JStr) (inbound : Headers) : Headers :=
  hSet (hSet inbound ("Host".data) upstreamHost)
    ("User-Agent".data) ("Docker/20.10.0 (linux)".data)

/-- Registry catalog of the multi-registry variant (`PROXY_MAP`). -/
def PROXY_MAP : List (JStr × JStr) :=
  [("gcr.io".data, "https://gcr.io".data),
   ("k8s.gcr.io".data, "https://k8s.gcr.io".data),
   ("quay.io".data, "https://quay.io".data),
   ("ghcr.io".data, "https://ghcr.io".data)]

/-- Auth-realm table of the multi-registry variant (`AUTH_REALMS`). -/
def AUTH_REALMS : List (JStr × JStr) :=
  [("registry.docker.io".data, "https://auth.docker.io/token".data),
   ("gcr.io".data, "https://gcr.io/v2/token".data),
   ("k8s.gcr.io".data, "https://k8s.gcr.io/v2/token".data),
   ("quay.io".data, "https://quay.io/v2/auth".data),
   ("ghcr.io".data, "https://ghcr.io/token".data)]

/-- Default upstream base URL (`DOCKER_HUB_REGISTRY`). -/
def DOCKER_HUB_REGISTRY : JStr := "https://registry-1.docker.io".data

/-- Default upstream host (`DOCKER_HUB_HOST`). -/
def DOCKER_HUB_HOST : JStr := "registry-1.docker.io".data

/-- Own string entries of a static object literal, in literal order. -/
def lookupMap : List (JStr × JStr) → JStr → Option JStr
  | [], _ => none
  | (k, v) :: rest, key => if key = k then some v else lookupMap rest key

/-- Property names every plain object inherits from `Object.prototype`
(the standard data properties plus the `__proto__` accessor): indexing a
plain object literal with one of these yields a truthy non-string value
(a function, or `Object.prototype` itself for `__proto__`). -/
def OBJECT_PROTOTYPE_KEYS : List JStr :=
  ["constructor".data, "hasOwnProperty".data, "isPrototypeOf".data,
   "propertyIsEnumerable".data, "toLocaleString".data, "toString".data,
   "valueOf".data, "__proto__".data, "__defineGetter__".data,
   "__defineSetter__".data, "__lookupGetter__".data, "__lookupSetter__".data]

/-- Result of the JavaScript property read `obj[key]` on a plain object
literal: an own string entry, a truthy non-string value inherited from
`Object.prototype`, or `undefined`. -/
inductive JsVal where
  | str (v : JStr)
  | inheritedObj
  | missing
deriving DecidableEq

/-- JavaScript indexing `obj[key]` on a static object literal, prototype
chain included: own entries win, otherwise `Object.prototype` properties
are found (truthy, not strings), otherwise `undefined`. -/
def jsIndex (m : List (JStr × JStr)) (key : JStr) : JsVal :=
  match lookupMap m key with
  | some v => .str v
  | none => if OBJECT_PROTOTYPE_KEYS.contains key then .inheritedObj else .missing

/-- Stand-in for the message of the `TypeError` thrown by `new URL` when
its base (or sole) argument stringifies an inherited `Object.prototype`
value such as `function toString() ...` or `[object Object]`; the exact
message text is runtime-specific. -/
def INVALID_URL_ERROR : JStr := "Invalid URL".data

instance {α β : Type} [DecidableEq α] [DecidableEq β] : DecidableEq (Except α β)
  | .error x, .error y =>
    if h : x = y then .isTrue (by rw [h]) else .isFalse (fun hc => h (Except.error.inj hc))
  | .error _, .ok _ => .isFalse (fun hc => Except.noConfusion hc)
  | .ok _, .error _ => .isFalse (fun hc => Except.noConfusion hc)
  | .ok x, .ok y =>
    if h : x = y then .isTrue (by rw [h]) else .isFalse (fun hc => h (Except.ok.inj hc))

/-- Result of `getUpstreamInfo`: the upstream request URL and the literal
upstream host name. -/
structure UpstreamInfo where
  upstreamUrl : JStr
  upstreamHost : JStr
deriving DecidableEq

/-- `pathname.replace(/^\/v2\//, "")`. -/
def stripV2Prefix (p : JStr) : JStr :=
  if p.take 4 = "/v2/".data then p.drop 4 else p

/-- Image-name segments of a Docker Hub path: the segments before the
first action segment, trying `manifests`, then `blobs`, then `tags`
(source `getUpstreamInfo`, lines 512-520). -/
def hubImageNameParts (parts : List JStr) : List JStr :=
  match jsIndexOf ("manifests".data) parts with
  | some i => parts.take i
  | none =>
    match jsIndexOf ("blobs".data) parts with
    | some i => parts.take i
    | none =>
      match jsIndexOf ("tags".data) parts with
      | some i => parts.take i
      | none => []

/-- `getUpstreamInfo(pathname)` of the multi-registry variant
(lines 493-528).  The truthiness test `PROXY_MAP[potentialRegistry]`
also succeeds for `Object.prototype` property names, in which case the
explicit-registry branch runs `new URL` with a non-string base and
throws (modelled as `.error`).  All catalog base URLs are bare origins,
so `new URL("/v2/" + p, base)` resolves to `base ++ "/v2/" ++ p`. -/
def getUpstreamInfo (pathname : JStr) : Except JStr UpstreamInfo :=
  match jsIndex PROXY_MAP ((splitOnChar '/' (stripV2Prefix pathname)).headD []) with
  | .str upstreamRegistry =>
    .ok ⟨upstreamRegistry ++ "/v2/".data ++
        joinChar '/' ((splitOnChar '/' (stripV2Prefix pathname)).drop 1),
      (splitOnChar '/' (stripV2Prefix pathname)).headD []⟩
  | .inheritedObj => .error INVALID_URL_ERROR
  | .missing =>
    .ok ⟨DOCKER_HUB_REGISTRY ++ "/v2/".data ++
        (if (hubImageNameParts (splitOnChar '/' (stripV2Prefix pathname))).length = 1 ∧
            (hubImageNameParts (splitOnChar '/' (stripV2Prefix pathname))).headD [] ≠ [] then
          "library/".data ++ stripV2Prefix pathname
        else stripV2Prefix pathname),
      DOCKER_HUB_HOST⟩

/-- Image-name segments as the claim words them: the segments preceding
the first action segment among `manifests`, `blobs`, `tags`, in that
token priority.  Stated independently of `getUpstreamInfo` for the
refinement comparison in claim C1. -/
def specImageNameSegs (parts : List JStr) : List JStr :=
  if ("manifests".data) ∈ parts then parts.takeWhile (fun s => s != "manifests".data)
  else if ("blobs".data) ∈ parts then parts.takeWhile (fun s => s != "blobs".data)
  else if ("tags".data) ∈ parts then parts.takeWhile (fun s => s != "tags".data)
  else []

/-- Claim C1's normalization condition: exactly one non-empty image-name
segment. -/
def specNormalizeCond (parts : List JStr) : Bool :=
  match specImageNameSegs parts with
  | [s] => !s.isEmpty
  | _ => false

/-- Character class of the parameter-name regex `[a-zA-Z_]`. -/
def isWwwKeyChar (c : Char) : Bool :=
  (decide ('a' ≤ c) && decide (c ≤ 'z')) ||
  (decide ('A' ≤ c) && decide (c ≤ 'Z')) ||
  decide (c = '_')

/-- Longest run of parameter-name characters at the head of the string. -/
def takeKeyRun : JStr → JStr × JStr
  | [] => ([], [])
  | c :: cs =>
    if isWwwKeyChar c then (c :: (takeKeyRun cs).1, (takeKeyRun cs).2)
    else ([], c :: cs)

/-- Characters up to the next double quote, with the remainder after it;
`none` when no closing quote exists (the regex `[^"]*"` fails then). -/
def takeQuoted : JStr → Option (JStr × JStr)
  | [] => none
  | c :: cs =>
    if c = '"' then some ([], cs)
    else
      match takeQuoted cs with
      | some (v, r) => some (c :: v, r)
      | none => none

/-- One attempt of the regex `([a-zA-Z_]+)="([^"]*)"` at the head of the
string: the matched key, value, and remainder after the match. -/
def matchAt (l : JStr) : Option (JStr × JStr × JStr) :=
  if (takeKeyRun l).1 = [] then none
  else
    match (takeKeyRun l).2 with
    | '=' :: '"' :: r2 =>
      match takeQuoted r2 with
      | some (v, rest) => some ((takeKeyRun l).1, v, rest)
      | none => none
    | _ => none

/-- Fuelled global scan of the regex: on a match continue after it, on a
failure advance one position, exactly as `exec` with the `g` flag does. -/
def scanParamsF : Nat → JStr → List (JStr × JStr)
  | 0, _ => []
  | _ + 1, [] => []
  | fuel + 1, c :: cs =>
    match matchAt (c :: cs) with
    | some (k, v, rest) => (k, v) :: scanParamsF fuel rest
    | none => scanParamsF fuel cs

/-- All matches of `([a-zA-Z_]+)="([^"]*)"` in the string, left to right.
The string's length is sufficient fuel since every step consumes at least
one character. -/
def scanParams (l : JStr) : List (JStr × JStr) := scanParamsF l.length l

/-- Assignment `obj[k] = v` on a plain object modelled as an insertion
ordered association list: update in place or append.  Assigning to the
key `__proto__` invokes the inherited `Object.prototype` accessor
setter, which ignores a string value and creates no own entry, so the
pair is dropped. -/
def insertPairJS (acc : List (JStr × JStr)) (k v : JStr) : List (JStr × JStr) :=
  if k = "__proto__".data then acc
  else if acc.any (fun q => q.1 == k) then
    acc.map (fun q => if q.1 == k then (k, v) else q)
  else acc ++ [(k, v)]

/-- The `params` object built by the scan loop of `proxyRequest`
(lines 451-456). -/
def jsObjectFromPairs (ps : List (JStr × JStr)) : List (JStr × JStr) :=
  ps.foldl (fun acc p => insertPairJS acc p.1 p.2) []

/-- Property read `obj[k]` on the modelled object. -/
def lookupAssoc (ps : List (JStr × JStr)) (k : JStr) : Option JStr :=
  (ps.find? (fun p => p.1 == k)).map (·.2)

/-- Template `` `${key}="${value}"` `` used when reassembling the
challenge. -/
def renderPair (p : JStr × JStr) : JStr := p.1 ++ '=' :: '"' :: (p.2 ++ ['"'])

/-- `Object.entries(params).map(...).join(",")`. -/
def renderParams (ps : List (JStr × JStr)) : JStr := joinChar ',' (ps.map renderPair)

/-- `wwwAuth.split(" ")[0]`: the challenge scheme token. -/
def wwwAuthType (w : JStr) : JStr := w.takeWhile (fun c => c != ' ')

/-- Well-formedness of one challenge parameter under the spec's grammar
`key="value"`: a non-empty key over the regex's name alphabet and a
value without a double quote. -/
def wfPair (p : JStr × JStr) : Bool :=
  (!p.1.isEmpty) && p.1.all isWwwKeyChar && !(decide ('"' ∈ p.2))

/-- Well-formedness of a challenge parameter list. -/
def wfParams (ps : List (JStr × JStr)) : Bool := ps.all wfPair

/-- The realm value substituted by the proxy:
`https://{hostname}/v2/auth`. -/
def newRealmValue (hostname : JStr) : JStr :=
  "https://".data ++ hostname ++ "/v2/auth".data

/-- `Www-Authenticate` rewrite of the multi-registry `proxyRequest`
(lines 447-466): parse all quoted parameters, and only when a truthy
`realm` was found, reassemble `authType` plus the comma-joined parameters
with `realm` replaced.  `none` means the header is left untouched. -/
def rewriteWwwAuth? (hostname w : JStr) : Option JStr :=
  match lookupAssoc (jsObjectFromPairs (scanParams w)) ("realm".data) with
  | some r =>
    if r = [] then none
    else
      some (wwwAuthType w ++ ' ' :: renderParams
        ((jsObjectFromPairs (scanParams w)).map
          (fun p => if p.1 = "realm".data then (p.1, newRealmValue hostname) else p)))
  | none => none

/-- The final `Www-Authenticate` value after the rewrite step. -/
def rewriteWwwAuth (hostname w : JStr) : JStr := (rewriteWwwAuth? hostname w).getD w

/-- `Location` rewrite of the multi-registry `proxyRequest`
(lines 437-445): replace the first occurrence of
`https://{upstreamHost}` with `https://{proxyHost}`, whenever a
`Location` header is present, with no status check and no handling of
relative locations. -/
def rewriteLocationMulti (upstreamHost hostname loc : JStr) : JStr :=
  replaceFirst ("https://".data ++ upstreamHost) ("https://".data ++ hostname) loc

/-- `Location` rewrite of `proxyDockerRequest` (single-registry variant,
lines 96-110): only for 3xx statuses; absolute locations containing the
upstream host are rewritten, root-relative ones are prefixed with the
proxy origin. -/
def rewriteLocationHub (hostname : JStr) (status : Nat) (loc : JStr) : JStr :=
  if 300 ≤ status ∧ status < 400 then
    if containsSub loc ("registry-1.docker.io".data) then
      replaceFirst ("https://registry-1.docker.io".data) ("https://".data ++ hostname) loc
    else if loc.headD ' ' = '/' then "https://".data ++ hostname ++ loc
    else loc
  else loc

/-- Hexadecimal digit as emitted by `JSON.stringify` control escapes. -/
def hexDigit (n : Nat) : Char :=
  if n < 10 then Char.ofNat (48 + n) else Char.ofNat (87 + n)

/-- Escaping of one character under `JSON.stringify`. -/
def jsonEscapeChar (c : Char) : JStr :=
  if c = '"' then ['\\', '"']
  else if c = '\\' then ['\\', '\\']
  else if c = '\n' then ['\\', 'n']
  else if c = '\r' then ['\\', 'r']
  else if c = '\t' then ['\\', 't']
  else if c = '\x08' then ['\\', 'b']
  else if c = '\x0c' then ['\\', 'f']
  else if c.toNat < 32 then
    '\\' :: 'u' :: '0' :: '0' :: hexDigit (c.toNat / 16) :: [hexDigit (c.toNat % 16)]
  else [c]

/-- `JSON.stringify` escaping of a whole string body. -/
def jsonEscape : JStr → JStr
  | [] => []
  | c :: cs => jsonEscapeChar c ++ jsonEscape cs

/-- `JSON.stringify` of a string value. -/
def jsonString (s : JStr) : JStr := '"' :: (jsonEscape s ++ ['"'])

/-- Serialized error body `JSON.stringify({error, message[, timestamp]})`:
the single-registry catch emits a `timestamp` field, the multi-registry
catch does not. -/
def jsonErrorBody (msg : JStr) (timestamp : Option JStr) : JStr :=
  "\x7b\"error\":\"Proxy Error\",\"message\":".data ++ jsonString msg ++
  (match timestamp with
   | some t => ",\"timestamp\":".data ++ jsonString t
   | none => []) ++ "\x7d".data

/-- Response model: status, status text, headers, body. -/
structure Resp where
  status : Nat
  statusText : JStr
  headers : Headers
  body : JStr
deriving DecidableEq

/-- CORS preflight response (`handleCORS()`): 204 with the CORS set. -/
def corsPreflightResp : Resp := ⟨204, [], CORS_HEADERS, []⟩

/-- 404 response of the router, with CORS headers. -/
def notFoundResp : Resp := ⟨404, [], CORS_HEADERS, "Not Found".data⟩

/-- 400 response of `handleAuth` for a missing `service` parameter
(lines 383-387): note that no headers at all are attached. -/
def authMissingResp : Resp :=
  ⟨400, [], [], "Missing \x27service\x27 parameter in auth request".data⟩

/-- 400 response of `handleAuth` for an unsupported `service`
(lines 391-395): again without any headers. -/
def authUnsupportedResp (s : JStr) : Resp :=
  ⟨400, [], [], "Unsupported auth service: ".data ++ s⟩

/-- `Response.redirect(new URL("/v2/", request.url), 301)`: a bare 301
with only a `Location` header. -/
def redirectV2Resp (hostname : JStr) : Resp :=
  ⟨301, [], [("Location".data, "https://".data ++ hostname ++ "/v2/".data)], []⟩

/-- Landing page response; the HTML body is an external collaborator and
is elided, the headers are the ones the router attaches (no CORS). -/
def landingResp : Resp :=
  ⟨200, [],
   [("Content-Type".data, "text/html; charset=utf-8".data),
    ("Cache-Control".data, "public, max-age=3600".data)], []⟩

/-- 500 response of the multi-registry `proxyRequest` catch block
(lines 473-488): JSON body without a timestamp, content type plus the
CORS set. -/
def err500Multi (msg : JStr) : Resp :=
  ⟨500, [], ("Content-Type".data, "application/json".data) :: CORS_HEADERS,
   jsonErrorBody msg none⟩

/-- 500 response of the single-registry `proxyDockerRequest` catch block
(lines 129-142): JSON body with a timestamp (the `now` argument models
`new Date().toISOString()`). -/
def err500Hub (msg now : JStr) : Resp :=
  ⟨500, [], ("Content-Type".data, "application/json".data) :: CORS_HEADERS,
   jsonErrorBody msg (some now)⟩

/-- Upstream request built by `handleAuth`: URL base, query parameters as
an ordered list (set by `searchParams.set`), forwarded headers; a
`Request` constructed without an init method is a GET without a body. -/
structure OutRequest where
  method : JStr
  urlBase : JStr
  query : List (JStr × JStr)
  headers : Headers
  body : Option JStr
deriving DecidableEq

/-- What `handleAuth` does: answer locally, relay one fetch to the token
issuer, or throw an uncaught `TypeError` (there is no try/catch in
`handleAuth`, so a throw propagates to the platform). -/
inductive AuthAction where
  | respond (r : Resp)
  | relay (r : OutRequest)
  | throwError (e : JStr)
deriving DecidableEq

/-- `handleAuth(request)` (lines 378-407).  `service` and `scope` are the
query parameters of the inbound URL (`none` models a missing parameter);
`method` and `body` are the inbound request's method and body, which the
source never reads.  Empty strings are falsy in the `if (!service)` and
`if (scope)` guards.  For a `service` that is an `Object.prototype`
property name, `AUTH_REALMS[service]` is truthy, the 400 is skipped, and
`new URL(upstreamAuthUrl)` throws on the non-string value. -/
def handleAuthAction (method : JStr) (body : Option JStr)
    (service scope : Option JStr) (hdrs : Headers) : AuthAction :=
  match service with
  | none => .respond authMissingResp
  | some s =>
    if s = [] then .respond authMissingResp
    else
      match jsIndex AUTH_REALMS s with
      | .str issuer =>
        let scopeParams : List (JStr × JStr) :=
          match scope with
          | some sc => if sc = [] then [] else [("scope".data, sc)]
          | none => []
        .relay ⟨"GET".data, issuer, scopeParams ++ [("service".data, s)], hdrs, none⟩
      | .inheritedObj => .throwError INVALID_URL_ERROR
      | .missing => .respond (authUnsupportedResp s)

/-- `Location` rewriting step of `proxyRequest` (lines 437-445): when the
upstream response carries a `Location`, overwrite it in the outgoing
header set with the host-substituted value. -/
def applyLocationRewrite (upstreamHost hostname : JStr)
    (upstreamHeaders h1 : Headers) : Headers :=
  match hGet upstreamHeaders ("Location".data) with
  | some location =>
    hSet h1 ("Location".data) (rewriteLocationMulti upstreamHost hostname location)
  | none => h1

/-- `Www-Authenticate` rewriting step of `proxyRequest` (lines 447-466):
the header is overwritten only when the parse found a truthy realm. -/
def applyWwwAuthRewrite (hostname : JStr) (upstreamHeaders h2 : Headers) : Headers :=
  match hGet upstreamHeaders ("Www-Authenticate".data) with
  | some wwwAuth =>
    match rewriteWwwAuth? hostname wwwAuth with
    | some newAuth => hSet h2 ("Www-Authenticate".data) newAuth
    | none => h2
  | none => h2

/-- Response pipeline of the multi-registry `proxyRequest`
(lines 411-489), taking the single upstream fetch outcome as input: the
catch block converts any throw in the try block — the `new URL`
`TypeError` from a failed resolution, or a failing fetch — into the same
500 shape; a successful fetch gets CORS overlaid and the `Location` and
`Www-Authenticate` rewrites applied, preserving status, status text and
body.  In the source the resolution runs before the fetch, so the fetch
outcome parameter is only meaningful when the resolution succeeded (the
code performs no fetch otherwise); on that unreachable pairing of a
failed resolution with a failed fetch the model reports the fetch
failure. -/
def proxyRequestPipeline (hostname pathname : JStr)
    (fetchResult : Except JStr Resp) : Resp :=
  match fetchResult with
  | .error e => err500Multi e
  | .ok response =>
    match getUpstreamInfo pathname with
    | .error e => err500Multi e
    | .ok info =>
      ⟨response.status, response.statusText,
       applyWwwAuthRewrite hostname response.headers
         (applyLocationRewrite info.upstreamHost hostname
           response.headers (overlayCORS response.headers)),
       response.body⟩

/-- Inbound request as the multi-registry router sees it. -/
structure Req where
  method : JStr
  hostname : JStr
  pathname : JStr
  service : Option JStr
  scope : Option JStr
  headers : Headers
  body : Option JStr

/-- `handleRequest(request)` of the multi-registry variant
(lines 342-374).  `handleAuth` has no try/catch, so in its relay case the
fetch outcome, error included, propagates as is, and a `TypeError`
thrown inside `handleAuth` propagates likewise; the proxy path catches
everything. -/
def handleRequestMulti (req : Req) (fetchResult : Except JStr Resp) : Except JStr Resp :=
  if req.method = "OPTIONS".data then .ok corsPreflightResp
  else if ("/v2/auth".data) <+: req.pathname then
    match handleAuthAction req.method req.body req.service req.scope req.headers with
    | .respond r => .ok r
    | .relay _ => fetchResult
    | .throwError e => .error e
  else if ("/v2/".data) <+: req.pathname then
    .ok (proxyRequestPipeline req.hostname req.pathname fetchResult)
  else if req.pathname = "/v2".data then .ok (redirectV2Resp req.hostname)
  else if req.pathname = "/".data ∨ req.pathname = [] then .ok landingResp
  else .ok notFoundResp

/-- Well-formed header list: distinct case-insensitive names, as the
iteration of an actual `Headers` object always yields. -/
abbrev wfHeaders (h : Headers) : Prop := (h.map (fun p => lowerStr p.1)).Nodup

theorem stripV2Prefix_append (p : JStr) : stripV2Prefix ("/v2/".data ++ p) = p := by
  have hlen : ("/v2/".data).length = 4 := by decide
  have h1 : ("/v2/".data ++ p).take 4 = "/v2/".data := by
    rw [← hlen, List.take_left]
  have h2 : ("/v2/".data ++ p).drop 4 = p := by
    rw [← hlen, List.drop_left]
  simp [stripV2Prefix, h1, h2]

theorem splitOnChar_ne_nil (sep : Char) (l : JStr) : splitOnChar sep l ≠ [] := by
  cases l with
  | nil => simp [splitOnChar]
  | cons c cs =>
    unfold splitOnChar
    split
    · simp
    · split <;> simp

theorem joinChar_splitOnChar (sep : Char) (l : JStr) :
    joinChar sep (splitOnChar sep l) = l := by
  induction l with
  | nil => rfl
  | cons c cs ih =>
    unfold splitOnChar
    by_cases hc : c = sep
    · rw [if_pos hc]
      rcases hsp : splitOnChar sep cs with _ | ⟨p, ps⟩
      · exact absurd hsp (splitOnChar_ne_nil sep cs)
      · rw [hsp] at ih
        rw [show joinChar sep ([] :: p :: ps) = [] ++ sep :: joinChar sep (p :: ps) from rfl, ih]
        rw [hc]
        rfl
    · rw [if_neg hc]
      rcases hsp : splitOnChar sep cs with _ | ⟨p, ps⟩
      · exact absurd hsp (splitOnChar_ne_nil sep cs)
      · rw [hsp] at ih
        cases ps with
        | nil =>
          rw [show joinChar sep [c :: p] = c :: p from rfl]
          rw [show joinChar sep [p] = p from rfl] at ih
          rw [ih]
        | cons q qs =>
          rw [show joinChar sep ((c :: p) :: q :: qs) = (c :: p) ++ sep :: joinChar sep (q :: qs) from rfl]
          rw [show joinChar sep (p :: q :: qs) = p ++ sep :: joinChar sep (q :: qs) from rfl] at ih
          rw [List.cons_append, ih]

theorem splitOnChar_append (sep : Char) (k rest : JStr) (hk : sep ∉ k) :
    splitOnChar sep (k ++ sep :: rest) = k :: splitOnChar sep rest := by
  induction k with
  | nil => simp [splitOnChar]
  | cons c k2 ih =>
    have hc : ¬c = sep := by
      rintro rfl; exact hk (List.mem_cons_self _ _)
    have hk2 : sep ∉ k2 := fun h => hk (List.mem_cons_of_mem _ h)
    rw [List.cons_append]
    simp only [splitOnChar, hc, if_false, ih hk2]

theorem lookupMap_PROXY_MAP_no_slash {reg base : JStr}
    (h : lookupMap PROXY_MAP reg = some base) : '/' ∉ reg := by
  simp only [PROXY_MAP, lookupMap] at h
  split at h
  · next heq => subst heq; decide
  · split at h
    · next heq => subst heq; decide
    · split at h
      · next heq => subst heq; decide
      · split at h
        · next heq => subst heq; decide
        · cases h

theorem jsIndexOf_eq_none {x : JStr} {l : List JStr} :
    jsIndexOf x l = none ↔ x ∉ l := by
  induction l with
  | nil => simp [jsIndexOf]
  | cons y ys ih =>
    simp only [jsIndexOf]
    by_cases hy : y = x
    · subst hy; simp
    · rw [if_neg hy]
      simp only [Option.map_eq_none', ih, List.mem_cons]
      constructor
      · intro hn hmem
        rcases hmem with hmem | hmem
        · exact hy hmem.symm
        · exact hn hmem
      · intro hn hmem
        exact hn (Or.inr hmem)

theorem take_jsIndexOf {x : JStr} {l : List JStr} {i : Nat}
    (h : jsIndexOf x l = some i) :
    l.take i = l.takeWhile (fun s => s != x) := by
  induction l generalizing i with
  | nil => simp [jsIndexOf] at h
  | cons y ys ih =>
    simp only [jsIndexOf] at h
    by_cases hy : y = x
    · rw [if_pos hy] at h
      cases h
      subst hy
      simp [List.takeWhile_cons]
    · rw [if_neg hy] at h
      rcases hj : jsIndexOf x ys with _ | j
      · rw [hj] at h; simp at h
      · rw [hj] at h
        simp only [Option.map_some'] at h
        cases h
        have hbne : (y != x) = true := bne_iff_ne.mpr hy
        simp only [List.take_succ_cons, List.takeWhile_cons, hbne, if_true]
        rw [ih hj]

theorem mem_of_jsIndexOf_some {x : JStr} {l : List JStr} {i : Nat}
    (h : jsIndexOf x l = some i) : x ∈ l := by
  by_contra hc
  rw [jsIndexOf_eq_none.mpr hc] at h
  cases h

theorem hubImageNameParts_eq_spec (parts : List JStr) :
    hubImageNameParts parts = specImageNameSegs parts := by
  unfold hubImageNameParts specImageNameSegs
  split
  · next i1 h1 =>
    rw [if_pos (mem_of_jsIndexOf_some h1)]
    exact take_jsIndexOf h1
  · next h1 =>
    rw [if_neg (jsIndexOf_eq_none.mp h1)]
    split
    · next i2 h2 =>
      rw [if_pos (mem_of_jsIndexOf_some h2)]
      exact take_jsIndexOf h2
    · next h2 =>
      rw [if_neg (jsIndexOf_eq_none.mp h2)]
      split
      · next i3 h3 =>
        rw [if_pos (mem_of_jsIndexOf_some h3)]
        exact take_jsIndexOf h3
      · next h3 =>
        rw [if_neg (jsIndexOf_eq_none.mp h3)]

theorem normalizeCond_iff (parts : List JStr) :
    ((hubImageNameParts parts).length = 1 ∧ (hubImageNameParts parts).headD [] ≠ []) ↔
      specNormalizeCond parts = true := by
  rw [hubImageNameParts_eq_spec]
  unfold specNormalizeCond
  rcases hs : specImageNameSegs parts with _ | ⟨s, t⟩
  · simp
  · cases t with
    | nil =>
      cases s with
      | nil => simp [List.isEmpty]
      | cons a s2 => simp [List.isEmpty]
    | cons b t2 =>
      simp

theorem jsIndex_of_lookup_some {m : List (JStr × JStr)} {key v : JStr}
    (h : lookupMap m key = some v) : jsIndex m key = .str v := by
  unfold jsIndex
  rw [h]

theorem jsIndex_missing {m : List (JStr × JStr)} {key : JStr}
    (h1 : lookupMap m key = none) (h2 : OBJECT_PROTOTYPE_KEYS.contains key = false) :
    jsIndex m key = .missing := by
  unfold jsIndex
  rw [h1, h2]
  rfl

theorem jsIndex_inherited {m : List (JStr × JStr)} {key : JStr}
    (h1 : lookupMap m key = none) (h2 : OBJECT_PROTOTYPE_KEYS.contains key = true) :
    jsIndex m key = .inheritedObj := by
  unfold jsIndex
  rw [h1, h2]
  rfl

/-- C1 counterexample: for the path `/v2/toString/manifests/latest` the
first segment `toString` is not in the literal registry catalog
(`lookupMap PROXY_MAP` is `none`), so the claim asserts the Docker Hub
normalization `/v2/library/toString/manifests/latest`; but
`PROXY_MAP['toString']` finds the inherited `Object.prototype.toString`
function, which is truthy, so the explicit-registry branch runs and
`new URL` throws on the stringified function (surfacing as the
handler's 500), not the claimed Docker Hub resolution. -/
theorem officialImageProtoKey_cx :
    getUpstreamInfo ("/v2/toString/manifests/latest".data) =
      .error INVALID_URL_ERROR ∧
    lookupMap PROXY_MAP ("toString".data) = none ∧
    (Except.error INVALID_URL_ERROR : Except JStr UpstreamInfo) ≠
      .ok ⟨"https://registry-1.docker.io/v2/library/toString/manifests/latest".data,
        "registry-1.docker.io".data⟩ := by
  refine ⟨by rfl, by decide, ?_⟩
  intro h
  exact Except.noConfusion h

/-- C1 amended: on a path under `/v2/` whose first segment is neither a
registry prefix of the literal catalog nor an inherited
`Object.prototype` property name, `getUpstreamInfo` targets Docker Hub
and prepends `library/` exactly when the segments before the first
action segment (priority `manifests`, `blobs`, `tags`) consist of
exactly one non-empty image-name segment, passing the path through
unmodified otherwise; when the first segment is an `Object.prototype`
property name the truthy inherited value sends the code down the
explicit-registry branch, where `new URL` throws. -/
theorem officialImageNormalization :
    (∀ p : JStr, lookupMap PROXY_MAP ((splitOnChar '/' p).headD []) = none →
      OBJECT_PROTOTYPE_KEYS.contains ((splitOnChar '/' p).headD []) = false →
      getUpstreamInfo ("/v2/".data ++ p) =
        .ok ⟨"https://registry-1.docker.io/v2/".data ++
          (if specNormalizeCond (splitOnChar '/' p) then "library/".data ++ p else p),
         "registry-1.docker.io".data⟩) ∧
    (∀ p : JStr, lookupMap PROXY_MAP ((splitOnChar '/' p).headD []) = none →
      OBJECT_PROTOTYPE_KEYS.contains ((splitOnChar '/' p).headD []) = true →
      getUpstreamInfo ("/v2/".data ++ p) = .error INVALID_URL_ERROR) := by
  constructor
  · intro p hp hnp
    have hj : jsIndex PROXY_MAP ((splitOnChar '/' p).headD []) = .missing :=
      jsIndex_missing hp hnp
    unfold getUpstreamInfo
    rw [stripV2Prefix_append]
    split
    · next reg heq =>
      rw [hj] at heq
      cases heq
    · next heq =>
      rw [hj] at heq
      cases heq
    · next heq =>
      rw [Except.ok.injEq, UpstreamInfo.mk.injEq]
      refine ⟨?_, rfl⟩
      rw [show DOCKER_HUB_REGISTRY ++ "/v2/".data = "https://registry-1.docker.io/v2/".data from by decide]
      congr 1
      exact if_congr (normalizeCond_iff _) rfl rfl
  · intro p hp hpk
    have hj : jsIndex PROXY_MAP ((splitOnChar '/' p).headD []) = .inheritedObj :=
      jsIndex_inherited hp hpk
    unfold getUpstreamInfo
    rw [stripV2Prefix_append]
    split
    · next reg heq =>
      rw [hj] at heq
      cases heq
    · next heq => rfl
    · next heq =>
      rw [hj] at heq
      cases heq

/-- Witness for C1 at the two paths named by the claim plus a
prototype-key path exercising the throwing branch. -/
theorem officialImageNormalization_witness :
    getUpstreamInfo ("/v2/ubuntu/manifests/latest".data) =
      .ok ⟨"https://registry-1.docker.io/v2/library/ubuntu/manifests/latest".data,
       "registry-1.docker.io".data⟩ ∧
    getUpstreamInfo ("/v2/someuser/someimage/manifests/latest".data) =
      .ok ⟨"https://registry-1.docker.io/v2/someuser/someimage/manifests/latest".data,
       "registry-1.docker.io".data⟩ ∧
    getUpstreamInfo ("/v2/valueOf/manifests/latest".data) = .error INVALID_URL_ERROR := by
  refine ⟨?_, ?_, ?_⟩
  · have h := officialImageNormalization.1 ("ubuntu/manifests/latest".data) (by decide) (by decide)
    rw [show ("/v2/ubuntu/manifests/latest".data : JStr) =
        "/v2/".data ++ "ubuntu/manifests/latest".data from by decide]
    rw [h]
    decide
  · have h := officialImageNormalization.1 ("someuser/someimage/manifests/latest".data)
      (by decide) (by decide)
    rw [show ("/v2/someuser/someimage/manifests/latest".data : JStr) =
        "/v2/".data ++ "someuser/someimage/manifests/latest".data from by decide]
    rw [h]
    decide
  · have h := officialImageNormalization.2 ("valueOf/manifests/latest".data)
      (by decide) (by decide)
    rw [show ("/v2/valueOf/manifests/latest".data : JStr) =
        "/v2/".data ++ "valueOf/manifests/latest".data from by decide]
    rw [h]

/-- C5: on a path under `/v2/` whose first segment is a known registry
prefix, `getUpstreamInfo` strips that segment and resolves to that
registry's base URL with path `/v2/{remaining}`, with the prefix itself
as the upstream host. -/
theorem explicitRegistryRouting :
    ∀ reg base rest : JStr, lookupMap PROXY_MAP reg = some base →
      getUpstreamInfo ("/v2/".data ++ (reg ++ '/' :: rest)) =
        .ok ⟨base ++ "/v2/".data ++ rest, reg⟩ := by
  intro reg base rest h
  have hns : '/' ∉ reg := lookupMap_PROXY_MAP_no_slash h
  have hj : jsIndex PROXY_MAP reg = .str base := jsIndex_of_lookup_some h
  unfold getUpstreamInfo
  rw [stripV2Prefix_append, splitOnChar_append '/' reg rest hns, List.headD_cons,
    List.drop_one, List.tail_cons, joinChar_splitOnChar]
  split
  · next reg2 heq =>
    rw [hj] at heq
    cases heq
    rfl
  · next heq =>
    rw [hj] at heq
    cases heq
  · next heq =>
    rw [hj] at heq
    cases heq

/-- Witness for C5 at the path named by the claim. -/
theorem explicitRegistryRouting_witness :
    getUpstreamInfo ("/v2/gcr.io/google-containers/busybox/manifests/latest".data) =
      .ok ⟨"https://gcr.io/v2/google-containers/busybox/manifests/latest".data, "gcr.io".data⟩ := by
  have h := explicitRegistryRouting ("gcr.io".data) ("https://gcr.io".data)
    ("google-containers/busybox/manifests/latest".data) (by decide)
  rw [show ("/v2/gcr.io/google-containers/busybox/manifests/latest".data : JStr) =
      "/v2/".data ++ ("gcr.io".data ++ '/' :: "google-containers/busybox/manifests/latest".data) from by decide]
  rw [h]
  decide

theorem find?_cons_true {α : Type} (p : α → Bool) (a : α) (l : List α) (h : p a = true) :
    (a :: l).find? p = some a := by
  rw [show (a :: l).find? p = match p a with | true => some a | false => l.find? p from rfl, h]

theorem find?_cons_false {α : Type} (p : α → Bool) (a : α) (l : List α) (h : p a = false) :
    (a :: l).find? p = l.find? p := by
  rw [show (a :: l).find? p = match p a with | true => some a | false => l.find? p from rfl, h]

theorem find?_append_or {α : Type} (p : α → Bool) (l1 l2 : List α) :
    (l1 ++ l2).find? p = ((l1.find? p).orElse (fun _ => l2.find? p)) := by
  induction l1 with
  | nil => simp [Option.orElse]
  | cons a t ih =>
    rw [List.cons_append]
    cases hp : p a
    · rw [find?_cons_false p a (t ++ l2) hp, find?_cons_false p a t hp, ih]
    · rw [find?_cons_true p a (t ++ l2) hp, find?_cons_true p a t hp]
      rfl

theorem find?_none_of_any_false {α : Type} {p : α → Bool} {l : List α}
    (h : l.any p = false) : l.find? p = none := by
  induction l with
  | nil => rfl
  | cons a t ih =>
    cases hp : p a
    · simp only [List.any_cons, hp, Bool.false_or] at h
      rw [find?_cons_false p a t hp]
      exact ih h
    · simp [List.any_cons, hp] at h

theorem any_beq_false {key : JStr} {acc : Headers}
    (hall : ∀ q ∈ acc, lowerStr q.1 ≠ key) :
    acc.any (fun q => lowerStr q.1 == key) = false := by
  induction acc with
  | nil => rfl
  | cons q t ih =>
    simp only [List.any_cons, Bool.or_eq_false_iff]
    refine ⟨beq_eq_false_iff_ne.mpr (hall q (List.mem_cons_self _ _)), ?_⟩
    exact ih (fun r hr => hall r (List.mem_cons_of_mem _ hr))

theorem hSet_of_not_present (h : Headers) (k v : JStr)
    (hn : h.any (fun p => lowerStr p.1 == lowerStr k) = false) :
    hSet h k v = h ++ [(k, v)] := by
  unfold hSet
  simp [hn]

theorem hGet_map_replace (k v : JStr) :
    ∀ h : Headers, h.any (fun p => lowerStr p.1 == lowerStr k) = true →
      (List.find? (fun p => lowerStr p.1 == lowerStr k)
        (h.map (fun p => if lowerStr p.1 == lowerStr k then (p.1, v) else p))).map (·.2) =
        some v := by
  intro h
  induction h with
  | nil => intro hc; simp at hc
  | cons p t ih =>
    intro hc
    cases hb : (lowerStr p.1 == lowerStr k)
    · have ht : t.any (fun p => lowerStr p.1 == lowerStr k) = true := by
        simpa [List.any_cons, hb] using hc
      simp only [List.map_cons, hb, Bool.false_eq_true, if_false]
      rw [find?_cons_false (fun q => lowerStr q.1 == lowerStr k) p _ hb]
      exact ih ht
    · simp only [List.map_cons, hb, if_true]
      rw [find?_cons_true (fun q => lowerStr q.1 == lowerStr k) (p.1, v) _ hb]
      rfl

theorem find?_map_replace_other (k v k2 : JStr) (hk : lowerStr k2 ≠ lowerStr k) :
    ∀ h : Headers,
      List.find? (fun p => lowerStr p.1 == lowerStr k2)
        (h.map (fun p => if lowerStr p.1 == lowerStr k then (p.1, v) else p)) =
        List.find? (fun p => lowerStr p.1 == lowerStr k2) h := by
  intro h
  induction h with
  | nil => rfl
  | cons p t ih =>
    cases hb : (lowerStr p.1 == lowerStr k)
    · simp only [List.map_cons, hb, Bool.false_eq_true, if_false]
      cases hc : (lowerStr p.1 == lowerStr k2)
      · rw [find?_cons_false (fun q => lowerStr q.1 == lowerStr k2) p _ hc,
          find?_cons_false (fun q => lowerStr q.1 == lowerStr k2) p t hc, ih]
      · rw [find?_cons_true (fun q => lowerStr q.1 == lowerStr k2) p _ hc,
          find?_cons_true (fun q => lowerStr q.1 == lowerStr k2) p t hc]
    · have hb2 : (lowerStr p.1 == lowerStr k2) = false := by
        refine beq_eq_false_iff_ne.mpr ?_
        intro hcontra
        exact hk (hcontra.symm.trans (beq_iff_eq.mp hb))
      simp only [List.map_cons, hb, if_true]
      rw [find?_cons_false (fun q => lowerStr q.1 == lowerStr k2) (p.1, v) _ hb2,
        find?_cons_false (fun q => lowerStr q.1 == lowerStr k2) p t hb2, ih]

theorem hGet_hSet_same (h : Headers) (k v k2 : JStr) (hk : lowerStr k2 = lowerStr k) :
    hGet (hSet h k v) k2 = some v := by
  unfold hGet hSet
  rw [hk]
  cases hc : h.any (fun p => lowerStr p.1 == lowerStr k)
  · simp only [hc, Bool.false_eq_true, if_false]
    rw [find?_append_or, find?_none_of_any_false hc]
    simp [List.find?, Option.orElse]
  · simp only [hc, if_true]
    exact hGet_map_replace k v h hc

theorem hGet_hSet_other (h : Headers) (k v k2 : JStr) (hk : lowerStr k2 ≠ lowerStr k) :
    hGet (hSet h k v) k2 = hGet h k2 := by
  unfold hGet hSet
  cases hc : h.any (fun p => lowerStr p.1 == lowerStr k)
  · simp only [hc, Bool.false_eq_true, if_false]
    rw [find?_append_or]
    cases hf : List.find? (fun p => lowerStr p.1 == lowerStr k2) h
    · have hsingle : List.find? (fun p => lowerStr p.1 == lowerStr k2) [(k, v)] = none := by
        have : (lowerStr k == lowerStr k2) = false :=
          beq_eq_false_iff_ne.mpr (fun he => hk he.symm)
        simp [List.find?, this]
      simp [hf, hsingle, Option.orElse]
    · simp [hf, Option.orElse]
  · simp only [hc, if_true]
    rw [find?_map_replace_other k v k2 hk]

theorem foldl_copy_eq_filter :
    ∀ (h acc : Headers), (h.map (fun p => lowerStr p.1)).Nodup →
      (∀ p ∈ h, ∀ q ∈ acc, lowerStr q.1 ≠ lowerStr p.1) →
      h.foldl (fun acc p =>
          if EXCLUDED_HUB.contains (lowerStr p.1) then acc else hSet acc p.1 p.2) acc =
        acc ++ h.filter (fun p => !(EXCLUDED_HUB.contains (lowerStr p.1))) := by
  intro h
  induction h with
  | nil => intro acc _ _; simp
  | cons p t ih =>
    intro acc hnd hdisj
    rw [List.map_cons] at hnd
    obtain ⟨hhead, hnd2⟩ := List.nodup_cons.mp hnd
    rw [List.foldl_cons, List.filter_cons]
    cases hex : EXCLUDED_HUB.contains (lowerStr p.1)
    · simp only [hex, Bool.false_eq_true, if_false, Bool.not_false, if_true]
      rw [hSet_of_not_present _ _ _ (any_beq_false (hdisj p (List.mem_cons_self _ _)))]
      rw [show ((p.1 : JStr), (p.2 : JStr)) = p from rfl]
      rw [ih (acc ++ [p]) hnd2 ?_]
      · simp
      · intro p2 hp2 q hq
        rcases List.mem_append.mp hq with hq | hq
        · exact hdisj p2 (List.mem_cons_of_mem _ hp2) q hq
        · have hq2 : q = p := by simpa using hq
          subst hq2
          intro he
          apply hhead
          rw [he]
          exact List.mem_map_of_mem _ hp2
    · simp only [hex, if_true, Bool.not_true, Bool.false_eq_true, if_false]
      exact ih acc hnd2 (fun p2 hp2 q hq => hdisj p2 (List.mem_cons_of_mem _ hp2) q hq)

theorem hubCopyHeaders_eq_filter (h : Headers) (hw : wfHeaders h) :
    hubCopyHeaders h = h.filter (fun p => !(EXCLUDED_HUB.contains (lowerStr p.1))) := by
  have := foldl_copy_eq_filter h [] hw (by intro p hp q hq; cases hq)
  simpa [hubCopyHeaders] using this

theorem hGet_filter_excluded (h : Headers) (k : JStr)
    (hex : EXCLUDED_HUB.contains (lowerStr k) = true) :
    hGet (h.filter (fun p => !(EXCLUDED_HUB.contains (lowerStr p.1)))) k = none := by
  induction h with
  | nil => rfl
  | cons p t ih =>
    rw [List.filter_cons]
    cases hp : (!(EXCLUDED_HUB.contains (lowerStr p.1)))
    · simp only [hp, Bool.false_eq_true, if_false]
      exact ih
    · simp only [hp, if_true]
      have hpc : (lowerStr p.1 == lowerStr k) = false := by
        refine beq_eq_false_iff_ne.mpr ?_
        intro he
        rw [Bool.not_eq_true'] at hp
        rw [he, hex] at hp
        cases hp
      simpa [hGet, List.find?, hpc] using ih

theorem hGet_filter_not_excluded (h : Headers) (k : JStr)
    (hnex : EXCLUDED_HUB.contains (lowerStr k) = false) :
    hGet (h.filter (fun p => !(EXCLUDED_HUB.contains (lowerStr p.1)))) k = hGet h k := by
  induction h with
  | nil => rfl
  | cons p t ih =>
    rw [List.filter_cons]
    cases hp : (!(EXCLUDED_HUB.contains (lowerStr p.1)))
    · have hpc : (lowerStr p.1 == lowerStr k) = false := by
        refine beq_eq_false_iff_ne.mpr ?_
        intro he
        have hpt : EXCLUDED_HUB.contains (lowerStr p.1) = true := by
          simpa using hp
        rw [he, hnex] at hpt
        cases hpt
      simp only [hp, Bool.false_eq_true, if_false]
      rw [ih]
      unfold hGet
      rw [find?_cons_false (fun q => lowerStr q.1 == lowerStr k) p t hpc]
    · simp only [hp, if_true]
      unfold hGet
      cases hc : (lowerStr p.1 == lowerStr k)
      · rw [find?_cons_false (fun q => lowerStr q.1 == lowerStr k) p _ hc,
          find?_cons_false (fun q => lowerStr q.1 == lowerStr k) p t hc]
        exact ih
      · rw [find?_cons_true (fun q => lowerStr q.1 == lowerStr k) p _ hc,
          find?_cons_true (fun q => lowerStr q.1 == lowerStr k) p t hc]

theorem hGet_hubDefaultUA_other (h : Headers) (k : JStr)
    (hk : lowerStr k ≠ lowerStr ("User-Agent".data)) :
    hGet (hubDefaultUA h) k = hGet h k := by
  unfold hubDefaultUA
  split
  · rfl
  · exact hGet_hSet_other _ _ _ _ hk

theorem hGet_hubDefaultUA_ua_some (h : Headers) (ua : JStr)
    (hua : hGet h ("User-Agent".data) = some ua) :
    hGet (hubDefaultUA h) ("User-Agent".data) = some ua := by
  unfold hubDefaultUA
  split
  · exact hua
  · next hno => simp [hHas, hua] at hno

theorem hGet_hubDefaultUA_ua_none (h : Headers)
    (hua : hGet h ("User-Agent".data) = none) :
    hGet (hubDefaultUA h) ("User-Agent".data) = some ("Docker/20.10.0 (linux)".data) := by
  unfold hubDefaultUA
  split
  · next hyes => simp [hHas, hua] at hyes
  · exact hGet_hSet_same _ _ _ _ rfl

theorem hub_get_excluded_none (h : Headers) (k : JStr) (hw : wfHeaders h)
    (hex : EXCLUDED_HUB.contains (lowerStr k) = true)
    (hk1 : lowerStr k ≠ lowerStr ("Host".data))
    (hk2 : lowerStr k ≠ lowerStr ("User-Agent".data)) :
    hGet (buildProxyHeadersHub h) k = none := by
  unfold buildProxyHeadersHub
  rw [hGet_hubDefaultUA_other _ _ hk2, hGet_hSet_other _ _ _ _ hk1,
    hubCopyHeaders_eq_filter h hw]
  exact hGet_filter_excluded h k hex

/-- C7 counterexample: the multi-registry `proxyRequest` copies the
inbound headers without any stripping, so an inbound `origin` header
reaches the outbound header set, which the claim requires to be removed. -/
theorem outboundHeadersNotStripped_cx :
    hGet (buildProxyHeadersMulti ("registry-1.docker.io".data)
        [("origin".data, "https://attacker.example".data)]) ("origin".data) =
      some ("https://attacker.example".data) := by
  decide

/-- C7 amended: in `proxyDockerRequest` the outbound set is the inbound
set minus `host`, `origin`, `referer`, `cf-ray`, `cf-connecting-ip`,
`cf-visitor`, with `Host` forced to the upstream host and other headers
(`Authorization` included) unchanged; in the multi-registry
`proxyRequest` nothing is stripped: every inbound header except `Host`
and `User-Agent` is forwarded unchanged, `origin` and `referer`
included, with `Host` forced to the resolved upstream host. -/
theorem outboundHeadersAmended :
    (∀ h : Headers, wfHeaders h →
      hGet (buildProxyHeadersHub h) ("origin".data) = none ∧
      hGet (buildProxyHeadersHub h) ("referer".data) = none ∧
      hGet (buildProxyHeadersHub h) ("cf-ray".data) = none ∧
      hGet (buildProxyHeadersHub h) ("cf-connecting-ip".data) = none ∧
      hGet (buildProxyHeadersHub h) ("cf-visitor".data) = none ∧
      hGet (buildProxyHeadersHub h) ("Host".data) = some ("registry-1.docker.io".data)) ∧
    (∀ (h : Headers) (k : JStr), wfHeaders h →
      EXCLUDED_HUB.contains (lowerStr k) = false →
      lowerStr k ≠ lowerStr ("Host".data) →
      lowerStr k ≠ lowerStr ("User-Agent".data) →
      hGet (buildProxyHeadersHub h) k = hGet h k) ∧
    (∀ (host : JStr) (h : Headers) (k : JStr),
      lowerStr k ≠ lowerStr ("Host".data) →
      lowerStr k ≠ lowerStr ("User-Agent".data) →
      hGet (buildProxyHeadersMulti host h) k = hGet h k) ∧
    (∀ (host : JStr) (h : Headers),
      hGet (buildProxyHeadersMulti host h) ("Host".data) = some host) := by
  refine ⟨?_, ?_, ?_, ?_⟩
  · intro h hw
    refine ⟨hub_get_excluded_none h _ hw (by decide) (by decide) (by decide),
      hub_get_excluded_none h _ hw (by decide) (by decide) (by decide),
      hub_get_excluded_none h _ hw (by decide) (by decide) (by decide),
      hub_get_excluded_none h _ hw (by decide) (by decide) (by decide),
      hub_get_excluded_none h _ hw (by decide) (by decide) (by decide), ?_⟩
    unfold buildProxyHeadersHub
    rw [hGet_hubDefaultUA_other _ _ (by decide)]
    exact hGet_hSet_same _ _ _ _ rfl
  · intro h k hw hnex hk1 hk2
    unfold buildProxyHeadersHub
    rw [hGet_hubDefaultUA_other _ _ hk2, hGet_hSet_other _ _ _ _ hk1,
      hubCopyHeaders_eq_filter h hw]
    exact hGet_filter_not_excluded h k hnex
  · intro host h k hk1 hk2
    unfold buildProxyHeadersMulti
    rw [hGet_hSet_other _ _ _ _ hk2, hGet_hSet_other _ _ _ _ hk1]
  · intro host h
    unfold buildProxyHeadersMulti
    rw [hGet_hSet_other _ _ _ _ (by decide)]
    exact hGet_hSet_same _ _ _ _ rfl

/-- Witness for the amended C7: on a concrete inbound header set the
single-registry transform forwards `Authorization` unchanged and strips
`origin`. -/
theorem outboundHeadersAmended_witness :
    hGet (buildProxyHeadersHub
        [("authorization".data, "Bearer secret".data),
         ("origin".data, "https://web.example".data)])
      ("authorization".data) = some ("Bearer secret".data) ∧
    hGet (buildProxyHeadersHub
        [("authorization".data, "Bearer secret".data),
         ("origin".data, "https://web.example".data)])
      ("origin".data) = none := by
  constructor
  · have h := outboundHeadersAmended.2.1
      [("authorization".data, "Bearer secret".data),
       ("origin".data, "https://web.example".data)]
      ("authorization".data) (by decide) (by decide) (by decide) (by decide)
    rw [h]
    decide
  · exact (outboundHeadersAmended.1
      [("authorization".data, "Bearer secret".data),
       ("origin".data, "https://web.example".data)] (by decide)).1

/-- C8 counterexample: the multi-registry `proxyRequest` sets the fixed
`User-Agent` unconditionally, so an inbound `User-Agent` is overwritten
rather than forwarded. -/
theorem userAgentOverwritten_cx :
    hGet (buildProxyHeadersMulti ("registry-1.docker.io".data)
        [("user-agent".data, "curl/8.5.0".data)]) ("user-agent".data) =
      some ("Docker/20.10.0 (linux)".data) ∧
    ("Docker/20.10.0 (linux)".data : JStr) ≠ "curl/8.5.0".data := by
  exact ⟨by decide, by decide⟩

/-- C8 amended: `proxyDockerRequest` sets the fixed default `User-Agent`
only when the inbound request carries none and forwards an inbound value
unchanged; the multi-registry `proxyRequest` always sends the fixed
default, overwriting any inbound value. -/
theorem userAgentAmended :
    (∀ (h : Headers) (ua : JStr), wfHeaders h →
      hGet h ("User-Agent".data) = some ua →
      hGet (buildProxyHeadersHub h) ("User-Agent".data) = some ua) ∧
    (∀ h : Headers, wfHeaders h →
      hGet h ("User-Agent".data) = none →
      hGet (buildProxyHeadersHub h) ("User-Agent".data) =
        some ("Docker/20.10.0 (linux)".data)) ∧
    (∀ (host : JStr) (h : Headers),
      hGet (buildProxyHeadersMulti host h) ("User-Agent".data) =
        some ("Docker/20.10.0 (linux)".data)) := by
  refine ⟨?_, ?_, ?_⟩
  · intro h ua hw hua
    unfold buildProxyHeadersHub
    apply hGet_hubDefaultUA_ua_some
    rw [hGet_hSet_other _ _ _ _ (by decide), hubCopyHeaders_eq_filter h hw,
      hGet_filter_not_excluded h _ (by decide)]
    exact hua
  · intro h hw hua
    unfold buildProxyHeadersHub
    apply hGet_hubDefaultUA_ua_none
    rw [hGet_hSet_other _ _ _ _ (by decide), hubCopyHeaders_eq_filter h hw,
      hGet_filter_not_excluded h _ (by decide)]
    exact hua
  · intro host h
    unfold buildProxyHeadersMulti
    exact hGet_hSet_same _ _ _ _ rfl

/-- Witness for the amended C8: an inbound `User-Agent` is forwarded
unchanged by the single-registry transform, and defaulted when absent. -/
theorem userAgentAmended_witness :
    hGet (buildProxyHeadersHub [("user-agent".data, "curl/7.79".data)])
      ("User-Agent".data) = some ("curl/7.79".data) ∧
    hGet (buildProxyHeadersHub [("accept".data, "application/json".data)])
      ("User-Agent".data) = some ("Docker/20.10.0 (linux)".data) := by
  constructor
  · exact userAgentAmended.1 [("user-agent".data, "curl/7.79".data)]
      ("curl/7.79".data) (by decide) (by decide)
  · exact userAgentAmended.2.1 [("accept".data, "application/json".data)]
      (by decide) (by decide)

theorem isPrefixOf_append_self (pat rest : JStr) : pat.isPrefixOf (pat ++ rest) = true := by
  induction pat with
  | nil => simp [List.isPrefixOf]
  | cons a as ih => simp [List.isPrefixOf, ih]

theorem replaceFirst_append_self (pat rep rest : JStr) :
    replaceFirst pat rep (pat ++ rest) = rep ++ rest := by
  cases pat with
  | nil =>
    simp only [List.nil_append]
    cases rest with
    | nil => simp [replaceFirst]
    | cons c cs => simp [replaceFirst, List.isPrefixOf]
  | cons a as =>
    simp only [List.cons_append]
    have hpre : (a :: as).isPrefixOf (a :: (as ++ rest)) = true := by
      rw [← List.cons_append]
      exact isPrefixOf_append_self (a :: as) rest
    simp only [replaceFirst, hpre, if_true]
    rw [show (a :: as).length = as.length + 1 from rfl, List.drop_succ_cons, List.drop_left]

theorem replaceFirst_of_not_infix (pat rep : JStr) :
    ∀ l : JStr, ¬(pat <:+: l) → replaceFirst pat rep l = l := by
  intro l
  induction l with
  | nil =>
    intro h
    have hne : pat ≠ [] := by
      rintro rfl
      exact h List.nil_infix
    simp [replaceFirst, hne]
  | cons c cs ih =>
    intro h
    have hpre : pat.isPrefixOf (c :: cs) = false := by
      cases hp : pat.isPrefixOf (c :: cs)
      · rfl
      · exact absurd ((List.isPrefixOf_iff_prefix.mp hp).isInfix) h
    simp only [replaceFirst, hpre, Bool.false_eq_true, if_false]
    rw [ih ?_]
    intro hinf
    exact h (hinf.trans (List.suffix_cons c cs).isInfix)

theorem infix_append_right {sub l1 : JStr} (h : sub <:+: l1) (l2 : JStr) :
    sub <:+: l1 ++ l2 :=
  h.trans (List.prefix_append l1 l2).isInfix

theorem containsSub_hub_lit (rest : JStr) :
    containsSub ("https://registry-1.docker.io".data ++ rest) ("registry-1.docker.io".data) = true := by
  have h1 : ("registry-1.docker.io".data : JStr) <:+: "https://registry-1.docker.io".data := by
    decide
  exact decide_eq_true (infix_append_right h1 rest)

/-- C3 counterexample: for a 302 upstream response whose `Location` is
the root-relative path `/v2/blobs/sha256/abc`, the multi-registry
response pipeline leaves it unchanged instead of prefixing the proxy
origin `https://proxy.example.com` as the claim states. -/
theorem locationRelativeNotPrefixed_cx :
    hGet (proxyRequestPipeline ("proxy.example.com".data)
        ("/v2/library/ubuntu/blobs/sha256:abc".data)
        (.ok ⟨302, [], [("Location".data, "/v2/blobs/sha256/abc".data)], []⟩)).headers
      ("Location".data) = some ("/v2/blobs/sha256/abc".data) ∧
    some ("/v2/blobs/sha256/abc".data) ≠
      some ("https://proxy.example.com/v2/blobs/sha256/abc".data) := by
  exact ⟨by decide, by decide⟩

/-- C3 amended: the multi-registry `proxyRequest` rewrites a `Location`
of the form `https://{upstreamHost}...` to the proxy origin (whenever the
header is present, with no 3xx gate) and passes any `Location` not
containing `https://{upstreamHost}` — root-relative paths included —
through unchanged; only the single-registry `proxyDockerRequest`, on 3xx
responses, both rewrites absolute upstream locations and prefixes
root-relative ones with the proxy origin. -/
theorem locationRewriteAmended :
    (∀ host hostname rest : JStr,
      rewriteLocationMulti host hostname ("https://".data ++ host ++ rest) =
        "https://".data ++ hostname ++ rest) ∧
    (∀ host hostname loc : JStr, ¬(("https://".data ++ host) <:+: loc) →
      rewriteLocationMulti host hostname loc = loc) ∧
    (∀ (hostname : JStr) (status : Nat) (rest : JStr), 300 ≤ status → status < 400 →
      rewriteLocationHub hostname status ("https://registry-1.docker.io".data ++ rest) =
        "https://".data ++ hostname ++ rest) ∧
    (∀ (hostname : JStr) (status : Nat) (rest : JStr), 300 ≤ status → status < 400 →
      containsSub ('/' :: rest) ("registry-1.docker.io".data) = false →
      rewriteLocationHub hostname status ('/' :: rest) =
        "https://".data ++ hostname ++ ('/' :: rest)) := by
  refine ⟨?_, ?_, ?_, ?_⟩
  · intro host hostname rest
    unfold rewriteLocationMulti
    exact replaceFirst_append_self _ _ _
  · intro host hostname loc h
    unfold rewriteLocationMulti
    exact replaceFirst_of_not_infix _ _ _ h
  · intro hostname status rest h3 h4
    unfold rewriteLocationHub
    rw [if_pos ⟨h3, h4⟩, if_pos (containsSub_hub_lit rest)]
    exact replaceFirst_append_self _ _ _
  · intro hostname status rest h3 h4 hni
    unfold rewriteLocationHub
    rw [if_pos ⟨h3, h4⟩]
    simp only [hni, Bool.false_eq_true, if_false]
    rw [if_pos (by simp)]

/-- Witness for the amended C3 at the two locations named by the claim:
an absolute upstream URL rewritten by the multi-registry handler, and a
root-relative path prefixed by the single-registry handler on a 302. -/
theorem locationRewriteAmended_witness :
    rewriteLocationMulti ("registry-1.docker.io".data) ("proxy.example.com".data)
      ("https://registry-1.docker.io/v2/blobs/sha256/abc".data) =
      "https://proxy.example.com/v2/blobs/sha256/abc".data ∧
    rewriteLocationHub ("proxy.example.com".data) 302 ("/v2/blobs/sha256/abc".data) =
      "https://proxy.example.com/v2/blobs/sha256/abc".data := by
  constructor
  · have h := locationRewriteAmended.1 ("registry-1.docker.io".data)
      ("proxy.example.com".data) ("/v2/blobs/sha256/abc".data)
    rw [show ("https://registry-1.docker.io/v2/blobs/sha256/abc".data : JStr) =
        "https://".data ++ "registry-1.docker.io".data ++ "/v2/blobs/sha256/abc".data from by decide]
    rw [h]
    decide
  · have h := locationRewriteAmended.2.2.2 ("proxy.example.com".data) 302
      ("v2/blobs/sha256/abc".data) (by decide) (by decide) (by decide)
    rw [show ("/v2/blobs/sha256/abc".data : JStr) = '/' :: "v2/blobs/sha256/abc".data from by decide]
    rw [h]
    decide

theorem takeKeyRun_eq (l : JStr) : l = (takeKeyRun l).1 ++ (takeKeyRun l).2 := by
  induction l with
  | nil => rfl
  | cons c cs ih =>
    unfold takeKeyRun
    cases hc : isWwwKeyChar c
    · simp
    · simp only [if_true]
      rw [List.cons_append]
      exact congrArg (c :: ·) ih

theorem takeKeyRun_append_stop (k : JStr) (hk : ∀ c ∈ k, isWwwKeyChar c = true)
    (d : Char) (hd : isWwwKeyChar d = false) (r : JStr) :
    takeKeyRun (k ++ d :: r) = (k, d :: r) := by
  induction k with
  | nil => simp [takeKeyRun, hd]
  | cons a as ih =>
    have ha : isWwwKeyChar a = true := hk a (List.mem_cons_self _ _)
    have has : ∀ c ∈ as, isWwwKeyChar c = true := fun c hc => hk c (List.mem_cons_of_mem _ hc)
    rw [List.cons_append]
    unfold takeKeyRun
    rw [ih has]
    simp [ha]

theorem takeQuoted_append (v : JStr) (hv : '"' ∉ v) (r : JStr) :
    takeQuoted (v ++ '"' :: r) = some (v, r) := by
  induction v with
  | nil => simp [takeQuoted]
  | cons c cs ih =>
    have hc : ¬c = '"' := by
      rintro rfl
      exact hv (List.mem_cons_self _ _)
    rw [List.cons_append]
    unfold takeQuoted
    rw [if_neg hc, ih (fun h => hv (List.mem_cons_of_mem _ h))]

theorem takeQuoted_eq {l : JStr} : ∀ {v r : JStr}, takeQuoted l = some (v, r) →
    l = v ++ '"' :: r := by
  induction l with
  | nil => intro v r h; simp [takeQuoted] at h
  | cons c cs ih =>
    intro v r h
    unfold takeQuoted at h
    by_cases hc : c = '"'
    · rw [if_pos hc] at h
      rw [Option.some.injEq, Prod.mk.injEq] at h
      obtain ⟨h1, h2⟩ := h
      subst h1
      subst h2
      rw [hc]
      rfl
    · rw [if_neg hc] at h
      rcases hq : takeQuoted cs with _ | ⟨v2, r2⟩
      · rw [hq] at h; cases h
      · rw [hq] at h
        rw [Option.some.injEq, Prod.mk.injEq] at h
        obtain ⟨h1, h2⟩ := h
        subst h1
        subst h2
        rw [List.cons_append]
        exact congrArg (c :: ·) (ih hq)

theorem matchAt_some {l k v rest : JStr} (h : matchAt l = some (k, v, rest)) :
    l = k ++ '=' :: '"' :: (v ++ '"' :: rest) ∧ k ≠ [] := by
  unfold matchAt at h
  by_cases hk : (takeKeyRun l).1 = []
  · rw [if_pos hk] at h; cases h
  · rw [if_neg hk] at h
    split at h
    · next r2 heq =>
      rcases hq : takeQuoted r2 with _ | ⟨v2, rest2⟩
      · rw [hq] at h; cases h
      · rw [hq] at h
        rw [Option.some.injEq, Prod.mk.injEq, Prod.mk.injEq] at h
        obtain ⟨h1, h2, h3⟩ := h
        subst h1
        subst h2
        subst h3
        refine ⟨?_, hk⟩
        have hl := takeKeyRun_eq l
        rw [heq, takeQuoted_eq hq] at hl
        exact hl
    · cases h

theorem matchAt_render (k : JStr) (hk : k ≠ []) (hkc : ∀ c ∈ k, isWwwKeyChar c = true)
    (v : JStr) (hv : '"' ∉ v) (rest : JStr) :
    matchAt (k ++ '=' :: '"' :: (v ++ '"' :: rest)) = some (k, v, rest) := by
  have h1 := takeKeyRun_append_stop k hkc '=' (by decide) ('"' :: (v ++ '"' :: rest))
  unfold matchAt
  rw [h1, if_neg hk]
  simp only [takeQuoted_append v hv rest]

theorem matchAt_some_length {l k v rest : JStr} (h : matchAt l = some (k, v, rest)) :
    l.length = k.length + v.length + rest.length + 3 ∧ 1 ≤ k.length := by
  obtain ⟨heq, hne⟩ := matchAt_some h
  constructor
  · rw [heq]
    simp [List.length_append]
    omega
  · cases k with
    | nil => exact absurd rfl hne
    | cons a as => simp

theorem scanParamsF_ext : ∀ (f g : Nat) (l : JStr), l.length ≤ f → l.length ≤ g →
    scanParamsF f l = scanParamsF g l := by
  intro f
  induction f with
  | zero =>
    intro g l hf hg
    have : l = [] := List.length_eq_zero.mp (Nat.le_zero.mp hf)
    subst this
    cases g <;> rfl
  | succ f2 ih =>
    intro g l hf hg
    cases l with
    | nil => cases g <;> rfl
    | cons c cs =>
      cases g with
      | zero => simp at hg
      | succ g2 =>
        unfold scanParamsF
        rcases hm : matchAt (c :: cs) with _ | ⟨k, v, rest⟩
        · simp only [hm]
          exact ih g2 cs (by simpa using hf) (by simpa using hg)
        · simp only [hm]
          have hlen := (matchAt_some_length hm).1
          rw [List.length_cons] at hlen hf hg
          have hr1 : rest.length ≤ f2 := by omega
          have hr2 : rest.length ≤ g2 := by omega
          rw [ih g2 rest hr1 hr2]

theorem scanParams_cons_some {c : Char} {cs k v rest : JStr}
    (h : matchAt (c :: cs) = some (k, v, rest)) :
    scanParams (c :: cs) = (k, v) :: scanParams rest := by
  have hlen := (matchAt_some_length h).1
  rw [List.length_cons] at hlen
  have hstep : scanParamsF (cs.length + 1) (c :: cs) = (k, v) :: scanParamsF cs.length rest := by
    simp only [scanParamsF, h]
  show scanParamsF (c :: cs).length (c :: cs) = _
  rw [show (c :: cs).length = cs.length + 1 from rfl, hstep,
    scanParamsF_ext cs.length rest.length rest (by omega) (Nat.le_refl _)]
  rfl

theorem scanParams_cons_none {c : Char} {cs : JStr} (h : matchAt (c :: cs) = none) :
    scanParams (c :: cs) = scanParams cs := by
  have hstep : scanParamsF (cs.length + 1) (c :: cs) = scanParamsF cs.length cs := by
    simp only [scanParamsF, h]
  show scanParamsF (c :: cs).length (c :: cs) = _
  rw [show (c :: cs).length = cs.length + 1 from rfl, hstep]
  rfl

theorem matchAt_none_head {c : Char} (hc : isWwwKeyChar c = false) (cs : JStr) :
    matchAt (c :: cs) = none := by
  unfold matchAt takeKeyRun
  simp [hc]

theorem scanParams_sep (c : Char) (hc : isWwwKeyChar c = false) (l : JStr) :
    scanParams (c :: l) = scanParams l :=
  scanParams_cons_none (matchAt_none_head hc l)

theorem scanParams_scheme (s : JStr) (hs : ∀ c ∈ s, isWwwKeyChar c = true) (rest : JStr) :
    scanParams (s ++ ' ' :: rest) = scanParams rest := by
  induction s with
  | nil => simpa using scanParams_sep ' ' (by decide) rest
  | cons a as ih =>
    rw [List.cons_append]
    have hm : matchAt (a :: (as ++ ' ' :: rest)) = none := by
      rw [← List.cons_append]
      unfold matchAt
      rw [takeKeyRun_append_stop (a :: as) hs ' ' (by decide) rest]
      rw [if_neg (by simp)]
      rfl
    rw [scanParams_cons_none hm]
    exact ih (fun c hc2 => hs c (List.mem_cons_of_mem _ hc2))

theorem scanParams_pair (k v rest : JStr) (hk : k ≠ []) (hkc : ∀ c ∈ k, isWwwKeyChar c = true)
    (hv : '"' ∉ v) :
    scanParams (k ++ '=' :: '"' :: (v ++ '"' :: rest)) = (k, v) :: scanParams rest := by
  have hm := matchAt_render k hk hkc v hv rest
  cases k with
  | nil => exact absurd rfl hk
  | cons a as =>
    rw [List.cons_append]
    exact scanParams_cons_some hm

theorem any_fst_beq_false {key : JStr} {acc : List (JStr × JStr)}
    (hall : ∀ q ∈ acc, q.1 ≠ key) : acc.any (fun q => q.1 == key) = false := by
  induction acc with
  | nil => rfl
  | cons q t ih =>
    simp only [List.any_cons, Bool.or_eq_false_iff]
    refine ⟨beq_eq_false_iff_ne.mpr (hall q (List.mem_cons_self _ _)), ?_⟩
    exact ih (fun r hr => hall r (List.mem_cons_of_mem _ hr))

theorem insertPairJS_append (acc : List (JStr × JStr)) (k v : JStr)
    (hk : k ≠ "__proto__".data)
    (h : acc.any (fun q => q.1 == k) = false) :
    insertPairJS acc k v = acc ++ [(k, v)] := by
  unfold insertPairJS
  rw [if_neg hk]
  simp [h]

theorem foldl_insert_eq_append : ∀ (ps acc : List (JStr × JStr)),
    (ps.map Prod.fst).Nodup →
    (∀ p ∈ ps, p.1 ≠ "__proto__".data) →
    (∀ p ∈ ps, ∀ q ∈ acc, q.1 ≠ p.1) →
    ps.foldl (fun acc p => insertPairJS acc p.1 p.2) acc = acc ++ ps := by
  intro ps
  induction ps with
  | nil => intro acc _ _ _; simp
  | cons p t ih =>
    intro acc hnd hproto hdisj
    rw [List.map_cons] at hnd
    obtain ⟨hhead, hnd2⟩ := List.nodup_cons.mp hnd
    rw [List.foldl_cons]
    rw [insertPairJS_append acc p.1 p.2 (hproto p (List.mem_cons_self _ _))
      (any_fst_beq_false (fun q hq => hdisj p (List.mem_cons_self _ _) q hq))]
    rw [show ((p.1 : JStr), (p.2 : JStr)) = p from rfl]
    rw [ih (acc ++ [p]) hnd2 (fun p2 hp2 => hproto p2 (List.mem_cons_of_mem _ hp2)) ?_]
    · simp
    · intro p2 hp2 q hq
      rcases List.mem_append.mp hq with hq | hq
      · exact hdisj p2 (List.mem_cons_of_mem _ hp2) q hq
      · have hq2 : q = p := by simpa using hq
        subst hq2
        intro he
        apply hhead
        rw [he]
        exact List.mem_map_of_mem _ hp2

theorem jsObjectFromPairs_id (ps : List (JStr × JStr)) (hnd : (ps.map Prod.fst).Nodup)
    (hproto : ∀ p ∈ ps, p.1 ≠ "__proto__".data) :
    jsObjectFromPairs ps = ps := by
  have := foldl_insert_eq_append ps [] hnd hproto (by intro p hp q hq; cases hq)
  simpa [jsObjectFromPairs] using this

theorem lookupAssoc_mem : ∀ {ps : List (JStr × JStr)} {k v : JStr},
    (ps.map Prod.fst).Nodup → (k, v) ∈ ps → lookupAssoc ps k = some v := by
  intro ps
  induction ps with
  | nil => intro k v _ hm; cases hm
  | cons p t ih =>
    intro k v hnd hm
    rw [List.map_cons] at hnd
    obtain ⟨hhead, hnd2⟩ := List.nodup_cons.mp hnd
    rcases List.mem_cons.mp hm with hm | hm
    · subst hm
      unfold lookupAssoc
      rw [find?_cons_true (fun p => p.1 == k) (k, v) t (by simp)]
      rfl
    · have hne : (p.1 == k) = false := by
        refine beq_eq_false_iff_ne.mpr ?_
        intro he
        apply hhead
        rw [he]
        exact List.mem_map_of_mem _ hm
      unfold lookupAssoc at ih ⊢
      rw [find?_cons_false (fun p => p.1 == k) p t hne]
      exact ih hnd2 hm

theorem scanParams_render : ∀ ps : List (JStr × JStr), wfParams ps = true → ps ≠ [] →
    scanParams (renderParams ps) = ps := by
  intro ps
  induction ps with
  | nil => intro _ hne; exact absurd rfl hne
  | cons p t ih =>
    intro hwf _
    obtain ⟨hp, ht⟩ : wfPair p = true ∧ t.all wfPair = true := by
      simpa [wfParams, List.all_cons] using hwf
    obtain ⟨⟨h1, h2⟩, h3⟩ : ((!p.1.isEmpty) = true ∧ p.1.all isWwwKeyChar = true) ∧
        (!(decide ('"' ∈ p.2))) = true := by
      simpa [wfPair, Bool.and_eq_true] using hp
    have h1f : p.1.isEmpty = false := by simpa using h1
    have hkne : p.1 ≠ [] := by
      intro he
      rw [he] at h1f
      simp at h1f
    have hkc2 : ∀ c ∈ p.1, isWwwKeyChar c = true := fun c hc => List.all_eq_true.mp h2 c hc
    have hv2 : '"' ∉ p.2 := by simpa using h3
    cases t with
    | nil =>
      rw [show renderParams [p] = p.1 ++ '=' :: '"' :: (p.2 ++ '"' :: []) from rfl]
      rw [scanParams_pair p.1 p.2 [] hkne hkc2 hv2]
      rfl
    | cons q t2 =>
      have hshape : renderParams (p :: q :: t2) =
          p.1 ++ '=' :: '"' :: (p.2 ++ '"' :: (',' :: renderParams (q :: t2))) := by
        rw [show renderParams (p :: q :: t2) =
            (p.1 ++ '=' :: '"' :: (p.2 ++ ['"'])) ++ ',' :: renderParams (q :: t2) from rfl]
        simp [List.append_assoc]
      rw [hshape]
      rw [scanParams_pair p.1 p.2 (',' :: renderParams (q :: t2)) hkne hkc2 hv2]
      rw [scanParams_sep ',' (by decide) _]
      rw [ih ht (by simp)]

theorem takeWhile_append_stop (p : Char → Bool) (s : JStr) (hs : ∀ c ∈ s, p c = true)
    (d : Char) (hd : p d = false) (r : JStr) :
    (s ++ d :: r).takeWhile p = s := by
  induction s with
  | nil => simp [List.takeWhile_cons, hd]
  | cons a as ih =>
    rw [List.cons_append, List.takeWhile_cons, hs a (List.mem_cons_self _ _), if_pos rfl]
    exact congrArg (a :: ·) (ih (fun c hc => hs c (List.mem_cons_of_mem _ hc)))

theorem wwwAuthType_scheme (s : JStr) (hs : ∀ c ∈ s, isWwwKeyChar c = true) (rest : JStr) :
    wwwAuthType (s ++ ' ' :: rest) = s := by
  unfold wwwAuthType
  refine takeWhile_append_stop _ s ?_ ' ' (by decide) rest
  intro c hc
  refine bne_iff_ne.mpr ?_
  intro he
  have := hs c hc
  rw [he] at this
  exact absurd this (by decide)

/-- C2 counterexample: for the challenge
`Bearer realm="https://auth.docker.io/token",__proto__="y"` the claim
asserts every parameter other than `realm` is kept, but the scan's
`params[match[1]] = match[2]` assignment for the key `__proto__`
invokes the inherited `Object.prototype.__proto__` setter and stores
no own property, so the rewritten header has dropped the `__proto__`
parameter entirely. -/
theorem wwwAuthProtoDropped_cx :
    rewriteWwwAuth ("proxy.example.com".data)
      ("Bearer realm=\"https://auth.docker.io/token\",__proto__=\"y\"".data) =
      "Bearer realm=\"https://proxy.example.com/v2/auth\"".data ∧
    ("Bearer realm=\"https://proxy.example.com/v2/auth\"".data : JStr) ≠
      "Bearer realm=\"https://proxy.example.com/v2/auth\",__proto__=\"y\"".data := by
  exact ⟨by rfl, by decide⟩

/-- C2 amended: for every well-formed challenge `scheme k1="v1",...`
containing a non-empty `realm` parameter and no parameter named
`__proto__`, the multi-registry rewrite replaces only the `realm` value
with `https://{proxyHost}/v2/auth`, keeping the scheme token, every
other parameter, and the parameter order (a parameter named `__proto__`
is dropped, its assignment being swallowed by the inherited
`Object.prototype.__proto__` setter); and whenever the parse finds no
`realm` parameter at all, the header value is left untouched. -/
theorem wwwAuthRealmRewrite :
    (∀ (scheme : JStr) (ps : List (JStr × JStr)) (hostname r : JStr),
      scheme ≠ [] → (∀ c ∈ scheme, isWwwKeyChar c = true) →
      wfParams ps = true → (ps.map Prod.fst).Nodup →
      (∀ p ∈ ps, p.1 ≠ "__proto__".data) →
      ("realm".data, r) ∈ ps → r ≠ [] →
      rewriteWwwAuth hostname (scheme ++ ' ' :: renderParams ps) =
        scheme ++ ' ' :: renderParams (ps.map
          (fun p => if p.1 = "realm".data then (p.1, newRealmValue hostname) else p))) ∧
    (∀ hostname w : JStr,
      lookupAssoc (jsObjectFromPairs (scanParams w)) ("realm".data) = none →
      rewriteWwwAuth hostname w = w) := by
  constructor
  · intro scheme ps hostname r hsne hsk hwf hnd hproto hmem hrne
    have hne : ps ≠ [] := by rintro rfl; cases hmem
    unfold rewriteWwwAuth rewriteWwwAuth?
    rw [scanParams_scheme scheme hsk (renderParams ps)]
    rw [scanParams_render ps hwf hne]
    rw [jsObjectFromPairs_id ps hnd hproto]
    rw [lookupAssoc_mem hnd hmem]
    simp only [if_neg hrne, Option.getD_some]
    rw [wwwAuthType_scheme scheme hsk]
  · intro hostname w h
    unfold rewriteWwwAuth rewriteWwwAuth?
    rw [h]
    rfl

/-- Witness for C2 at the challenge named by the claim. -/
theorem wwwAuthRealmRewrite_witness :
    rewriteWwwAuth ("proxy.example.com".data)
      ("Bearer realm=\"https://auth.docker.io/token\",service=\"registry.docker.io\",scope=\"repository:library/ubuntu:pull\"".data) =
      "Bearer realm=\"https://proxy.example.com/v2/auth\",service=\"registry.docker.io\",scope=\"repository:library/ubuntu:pull\"".data := by
  have h := wwwAuthRealmRewrite.1 ("Bearer".data)
    [("realm".data, "https://auth.docker.io/token".data),
     ("service".data, "registry.docker.io".data),
     ("scope".data, "repository:library/ubuntu:pull".data)]
    ("proxy.example.com".data) ("https://auth.docker.io/token".data)
    (by decide) (by decide) (by decide) (by decide) (by decide) (by decide) (by decide)
  rw [show ("Bearer realm=\"https://auth.docker.io/token\",service=\"registry.docker.io\",scope=\"repository:library/ubuntu:pull\"".data : JStr) =
      "Bearer".data ++ ' ' :: renderParams
        [("realm".data, "https://auth.docker.io/token".data),
         ("service".data, "registry.docker.io".data),
         ("scope".data, "repository:library/ubuntu:pull".data)] from by decide]
  rw [h]
  decide

theorem infix_append_left {sub l2 : JStr} (h : sub <:+: l2) (l1 : JStr) :
    sub <:+: l1 ++ l2 :=
  h.trans (List.suffix_append l1 l2).isInfix

theorem hGet_overlayCORS_acao (h : Headers) :
    hGet (overlayCORS h) ("Access-Control-Allow-Origin".data) = some ("*".data) := by
  unfold overlayCORS CORS_HEADERS
  rw [List.foldl_cons, List.foldl_cons, List.foldl_cons, List.foldl_cons, List.foldl_cons,
    List.foldl_nil]
  rw [hGet_hSet_other _ _ _ _ (by decide), hGet_hSet_other _ _ _ _ (by decide),
    hGet_hSet_other _ _ _ _ (by decide), hGet_hSet_other _ _ _ _ (by decide)]
  exact hGet_hSet_same _ _ _ _ rfl

theorem hGet_applyLocationRewrite_other (host hostname : JStr) (uh h1 : Headers)
    (k : JStr) (hk : lowerStr k ≠ lowerStr ("Location".data)) :
    hGet (applyLocationRewrite host hostname uh h1) k = hGet h1 k := by
  unfold applyLocationRewrite
  split
  · exact hGet_hSet_other _ _ _ _ hk
  · rfl

theorem hGet_applyWwwAuthRewrite_other (hostname : JStr) (uh h2 : Headers)
    (k : JStr) (hk : lowerStr k ≠ lowerStr ("Www-Authenticate".data)) :
    hGet (applyWwwAuthRewrite hostname uh h2) k = hGet h2 k := by
  unfold applyWwwAuthRewrite
  split
  · split
    · exact hGet_hSet_other _ _ _ _ hk
    · rfl
  · rfl

theorem hGet_err500Multi_acao (msg : JStr) :
    hGet (err500Multi msg).headers ("Access-Control-Allow-Origin".data) =
      some ("*".data) := by
  show hGet (("Content-Type".data, "application/json".data) :: CORS_HEADERS)
    ("Access-Control-Allow-Origin".data) = some ("*".data)
  decide

theorem hGet_err500Hub_acao (msg now : JStr) :
    hGet (err500Hub msg now).headers ("Access-Control-Allow-Origin".data) =
      some ("*".data) := by
  show hGet (("Content-Type".data, "application/json".data) :: CORS_HEADERS)
    ("Access-Control-Allow-Origin".data) = some ("*".data)
  decide

theorem proxyRequestPipeline_cors (hostname pathname : JStr) (f : Except JStr Resp) :
    hGet (proxyRequestPipeline hostname pathname f).headers
      ("Access-Control-Allow-Origin".data) = some ("*".data) := by
  unfold proxyRequestPipeline
  split
  · next e => exact hGet_err500Multi_acao e
  · next r =>
    split
    · next e heq => exact hGet_err500Multi_acao e
    · next info heq =>
      show hGet (applyWwwAuthRewrite hostname r.headers
        (applyLocationRewrite info.upstreamHost hostname
          r.headers (overlayCORS r.headers))) _ = _
      rw [hGet_applyWwwAuthRewrite_other _ _ _ _ (by decide),
        hGet_applyLocationRewrite_other _ _ _ _ _ (by decide)]
      exact hGet_overlayCORS_acao _

theorem handleRequestMulti_options (req : Req) (f : Except JStr Resp)
    (h : req.method = "OPTIONS".data) :
    handleRequestMulti req f = .ok corsPreflightResp := by
  unfold handleRequestMulti
  rw [if_pos h]

theorem handleRequestMulti_auth (req : Req) (f : Except JStr Resp)
    (hm : req.method ≠ "OPTIONS".data) (ha : ("/v2/auth".data) <+: req.pathname) :
    handleRequestMulti req f =
      match handleAuthAction req.method req.body req.service req.scope req.headers with
      | .respond r => .ok r
      | .relay _ => f
      | .throwError e => .error e := by
  unfold handleRequestMulti
  rw [if_neg hm, if_pos ha]

theorem handleRequestMulti_proxy (req : Req) (f : Except JStr Resp)
    (hm : req.method ≠ "OPTIONS".data) (hna : ¬(("/v2/auth".data) <+: req.pathname))
    (hv : ("/v2/".data) <+: req.pathname) :
    handleRequestMulti req f = .ok (proxyRequestPipeline req.hostname req.pathname f) := by
  unfold handleRequestMulti
  rw [if_neg hm, if_neg hna, if_pos hv]

theorem handleRequestMulti_notFound (req : Req) (f : Except JStr Resp)
    (hm : req.method ≠ "OPTIONS".data) (hna : ¬(("/v2/auth".data) <+: req.pathname))
    (hnv : ¬(("/v2/".data) <+: req.pathname)) (h1 : req.pathname ≠ "/v2".data)
    (h2 : ¬(req.pathname = "/".data ∨ req.pathname = [])) :
    handleRequestMulti req f = .ok notFoundResp := by
  unfold handleRequestMulti
  rw [if_neg hm, if_neg hna, if_neg hnv, if_neg h1, if_neg h2]

/-- C4 counterexample: the auth relay's 400 for a missing `service`
parameter is produced with no headers at all: in particular no
`Access-Control-Allow-Origin`, where the claim requires the CORS header
on every response the proxy produces. -/
theorem corsMissingOnAuthError_cx :
    handleRequestMulti ⟨"GET".data, "proxy.example.com".data, "/v2/auth".data,
        none, none, [], none⟩ (.ok ⟨200, [], [], []⟩) = .ok authMissingResp ∧
    hGet authMissingResp.headers ("Access-Control-Allow-Origin".data) = none := by
  exact ⟨by rfl, by decide⟩

/-- C4 amended: the CORS preflight 204, the registry-proxy responses
(500 included) and the 404 carry `Access-Control-Allow-Origin: *`, but
the auth-relay 400s, the `/v2` 301 redirect and the landing page carry
no CORS header, and a successful auth relay returns the issuer response
exactly as fetched, with nothing added. -/
theorem corsCoverageAmended :
    (∀ (req : Req) (f : Except JStr Resp), req.method = "OPTIONS".data →
      handleRequestMulti req f = .ok corsPreflightResp) ∧
    hGet corsPreflightResp.headers ("Access-Control-Allow-Origin".data) = some ("*".data) ∧
    hGet notFoundResp.headers ("Access-Control-Allow-Origin".data) = some ("*".data) ∧
    (∀ (hostname pathname : JStr) (f : Except JStr Resp),
      hGet (proxyRequestPipeline hostname pathname f).headers
        ("Access-Control-Allow-Origin".data) = some ("*".data)) ∧
    hGet authMissingResp.headers ("Access-Control-Allow-Origin".data) = none ∧
    (∀ s : JStr, hGet (authUnsupportedResp s).headers
      ("Access-Control-Allow-Origin".data) = none) ∧
    (∀ hostname : JStr, hGet (redirectV2Resp hostname).headers
      ("Access-Control-Allow-Origin".data) = none) ∧
    hGet landingResp.headers ("Access-Control-Allow-Origin".data) = none ∧
    (∀ (req : Req) (f : Except JStr Resp) (s issuer : JStr),
      req.method ≠ "OPTIONS".data → ("/v2/auth".data) <+: req.pathname →
      req.service = some s → s ≠ [] → lookupMap AUTH_REALMS s = some issuer →
      handleRequestMulti req f = f) := by
  refine ⟨handleRequestMulti_options, by decide, by decide, proxyRequestPipeline_cors,
    by decide, ?_, ?_, by decide, ?_⟩
  · intro s
    rfl
  · intro hostname
    unfold redirectV2Resp hGet
    rw [find?_cons_false _ _ _ (by rfl)]
    rfl
  · intro req f s issuer hm ha hsvc hsne hlook
    have hj : jsIndex AUTH_REALMS s = .str issuer := jsIndex_of_lookup_some hlook
    rw [handleRequestMulti_auth req f hm ha, hsvc]
    simp only [handleAuthAction, if_neg hsne, hj]

/-- Witness for the amended C4: the preflight dispatch at a concrete
request, and a successful auth relay returning the fetched issuer
response unmodified. -/
theorem corsCoverageAmended_witness :
    handleRequestMulti ⟨"OPTIONS".data, "proxy.example.com".data, "/v2/".data,
        none, none, [], none⟩ (.ok ⟨200, [], [], []⟩) = .ok corsPreflightResp ∧
    handleRequestMulti ⟨"GET".data, "proxy.example.com".data, "/v2/auth".data,
        some ("registry.docker.io".data), none, [], none⟩
      (.ok ⟨401, [], [], []⟩) = .ok ⟨401, [], [], []⟩ :=
  ⟨corsCoverageAmended.1 _ _ (by decide),
   corsCoverageAmended.2.2.2.2.2.2.2.2 _ _ ("registry.docker.io".data)
     ("https://auth.docker.io/token".data) (by decide) (by decide) (by decide)
     (by decide) (by decide)⟩

/-- C6 counterexample: for `service=toString` the service has no entry
in the literal auth-realm table, so the claim requires the 400
unsupported-service response; but `AUTH_REALMS['toString']` finds the
inherited `Object.prototype.toString` function, which is truthy, so the
400 is skipped and `new URL` on the stringified function throws a
TypeError that no try/catch in `handleAuth` intercepts: the handler
propagates the error instead of responding 400. -/
theorem authRelayProtoTypeError_cx :
    handleAuthAction ("GET".data) none (some ("toString".data)) none [] =
      .throwError INVALID_URL_ERROR ∧
    lookupMap AUTH_REALMS ("toString".data) = none ∧
    (∀ r : Resp, AuthAction.throwError INVALID_URL_ERROR ≠ AuthAction.respond r) ∧
    handleRequestMulti ⟨"GET".data, "proxy.example.com".data, "/v2/auth".data,
        some ("toString".data), none, [], none⟩ (.ok ⟨200, [], [], []⟩) =
      .error INVALID_URL_ERROR := by
  refine ⟨by rfl, by decide, ?_, by rfl⟩
  intro r h
  exact AuthAction.noConfusion h

/-- C6 amended: the auth relay answers 400 without any upstream fetch
when the `service` query parameter is absent, and 400 with a message
naming the unsupported service when `service` is present (non-empty),
has no entry in the auth-realm table and is not an inherited
`Object.prototype` property name; for a service that names an
`Object.prototype` property the truthy inherited value skips the 400
and `new URL` throws an uncaught error instead. -/
theorem authRelayRejection :
    (∀ (m : JStr) (b sc : Option JStr) (h : Headers),
      handleAuthAction m b none sc h = .respond authMissingResp) ∧
    (∀ (m : JStr) (b : Option JStr) (s : JStr) (sc : Option JStr) (h : Headers),
      s ≠ [] → lookupMap AUTH_REALMS s = none →
      OBJECT_PROTOTYPE_KEYS.contains s = false →
      handleAuthAction m b (some s) sc h = .respond (authUnsupportedResp s)) ∧
    (∀ (m : JStr) (b : Option JStr) (s : JStr) (sc : Option JStr) (h : Headers),
      s ≠ [] → lookupMap AUTH_REALMS s = none →
      OBJECT_PROTOTYPE_KEYS.contains s = true →
      handleAuthAction m b (some s) sc h = .throwError INVALID_URL_ERROR) ∧
    authMissingResp.status = 400 ∧
    (∀ s : JStr, (authUnsupportedResp s).status = 400 ∧
      containsSub (authUnsupportedResp s).body s = true) ∧
    (∀ (r : Resp) (o : OutRequest), AuthAction.respond r ≠ AuthAction.relay o) := by
  refine ⟨?_, ?_, ?_, rfl, ?_, ?_⟩
  · intro m b sc h
    rfl
  · intro m b s sc h hs hl hnp
    have hj : jsIndex AUTH_REALMS s = .missing := jsIndex_missing hl hnp
    simp only [handleAuthAction, if_neg hs, hj]
  · intro m b s sc h hs hl hp
    have hj : jsIndex AUTH_REALMS s = .inheritedObj := jsIndex_inherited hl hp
    simp only [handleAuthAction, if_neg hs, hj]
  · intro s
    refine ⟨rfl, decide_eq_true ?_⟩
    exact ⟨"Unsupported auth service: ".data, [], by simp [authUnsupportedResp]⟩
  · intro r o
    simp

/-- Witness for the amended C6: a request with no service parameter, one
naming a service absent from the auth-realm table, and one naming an
`Object.prototype` property. -/
theorem authRelayRejection_witness :
    handleAuthAction ("GET".data) none none (some ("pull".data)) [] =
      .respond authMissingResp ∧
    handleAuthAction ("GET".data) none (some ("evil.example".data)) none [] =
      .respond (authUnsupportedResp ("evil.example".data)) ∧
    handleAuthAction ("GET".data) none (some ("valueOf".data)) none [] =
      .throwError INVALID_URL_ERROR :=
  ⟨authRelayRejection.1 _ _ _ _,
   authRelayRejection.2.1 _ _ _ _ _ (by decide) (by decide) (by decide),
   authRelayRejection.2.2.1 _ _ _ _ _ (by decide) (by decide) (by decide)⟩

theorem jsonErrorBody_field_pre (msg : JStr) (ts : Option JStr) (sub : JStr)
    (h : sub <:+: ("\x7b\"error\":\"Proxy Error\",\"message\":".data : JStr)) :
    containsSub (jsonErrorBody msg ts) sub = true := by
  refine decide_eq_true ?_
  unfold jsonErrorBody
  exact infix_append_right (infix_append_right (infix_append_right h _) _) _

theorem jsonErrorBody_timestamp (msg now : JStr) :
    containsSub (jsonErrorBody msg (some now)) ("\"timestamp\"".data) = true := by
  refine decide_eq_true ?_
  show ("\"timestamp\"".data : JStr) <:+:
    ("\x7b\"error\":\"Proxy Error\",\"message\":".data ++ jsonString msg ++
      (",\"timestamp\":".data ++ jsonString now) ++ "\x7d".data)
  exact infix_append_right (infix_append_left (infix_append_right (by decide) _) _) _

/-- C9 counterexample: the multi-registry catch block's JSON error body
has no timestamp field, and a failing fetch in the auth relay is not
caught by the proxy at all: the error propagates instead of a 500. -/
theorem errorBodyTimestamp_cx :
    (proxyRequestPipeline ("proxy.example.com".data)
        ("/v2/library/ubuntu/manifests/latest".data)
        (.error ("network failure".data))).body =
      "\x7b\"error\":\"Proxy Error\",\"message\":\"network failure\"\x7d".data ∧
    containsSub ("\x7b\"error\":\"Proxy Error\",\"message\":\"network failure\"\x7d".data)
      ("\"timestamp\"".data) = false ∧
    handleRequestMulti ⟨"GET".data, "proxy.example.com".data, "/v2/auth".data,
        some ("registry.docker.io".data), none, [], none⟩
      (.error ("network failure".data)) = .error ("network failure".data) := by
  exact ⟨by decide, by decide, by rfl⟩

/-- C9 amended: a failing registry-proxy fetch yields a 500 with the
CORS header and a JSON body with `error` and `message` fields — plus a
`timestamp` field in the single-registry variant only, the
multi-registry body having none — and each handler consumes exactly one
fetch outcome (no retry); a failing auth-relay fetch is not caught and
propagates instead of producing a 500. -/
theorem upstreamFailureAmended :
    (∀ hostname pathname msg : JStr,
      proxyRequestPipeline hostname pathname (.error msg) = err500Multi msg) ∧
    (∀ msg : JStr, (err500Multi msg).status = 500 ∧
      hGet (err500Multi msg).headers ("Access-Control-Allow-Origin".data) =
        some ("*".data) ∧
      (err500Multi msg).body = jsonErrorBody msg none ∧
      containsSub (err500Multi msg).body ("\"error\"".data) = true ∧
      containsSub (err500Multi msg).body ("\"message\"".data) = true) ∧
    (∀ msg now : JStr, (err500Hub msg now).status = 500 ∧
      hGet (err500Hub msg now).headers ("Access-Control-Allow-Origin".data) =
        some ("*".data) ∧
      (err500Hub msg now).body = jsonErrorBody msg (some now) ∧
      containsSub (err500Hub msg now).body ("\"error\"".data) = true ∧
      containsSub (err500Hub msg now).body ("\"timestamp\"".data) = true) ∧
    (∀ (req : Req) (e s issuer : JStr),
      req.method ≠ "OPTIONS".data → ("/v2/auth".data) <+: req.pathname →
      req.service = some s → s ≠ [] → lookupMap AUTH_REALMS s = some issuer →
      handleRequestMulti req (.error e) = .error e) := by
  refine ⟨?_, ?_, ?_, ?_⟩
  · intro hostname pathname msg
    rfl
  · intro msg
    exact ⟨rfl, hGet_err500Multi_acao msg, rfl,
      jsonErrorBody_field_pre msg none _ (by decide),
      jsonErrorBody_field_pre msg none _ (by decide)⟩
  · intro msg now
    exact ⟨rfl, hGet_err500Hub_acao msg now, rfl,
      jsonErrorBody_field_pre msg (some now) _ (by decide),
      jsonErrorBody_timestamp msg now⟩
  · intro req e s issuer hm ha hsvc hsne hlook
    have hj : jsIndex AUTH_REALMS s = .str issuer := jsIndex_of_lookup_some hlook
    rw [handleRequestMulti_auth req (.error e) hm ha, hsvc]
    simp only [handleAuthAction, if_neg hsne, hj]

/-- Witness for the amended C9: a concrete failing fetch through the
proxy pipeline, and a concrete failing auth relay propagating the
error. -/
theorem upstreamFailureAmended_witness :
    proxyRequestPipeline ("proxy.example.com".data)
      ("/v2/library/nginx/manifests/latest".data) (.error ("dns failure".data)) =
      err500Multi ("dns failure".data) ∧
    handleRequestMulti ⟨"GET".data, "proxy.example.com".data, "/v2/auth".data,
        some ("quay.io".data), none, [], none⟩ (.error ("dns failure".data)) =
      .error ("dns failure".data) :=
  ⟨upstreamFailureAmended.1 _ _ _,
   upstreamFailureAmended.2.2.2 _ _ ("quay.io".data) ("https://quay.io/v2/auth".data)
     (by decide) (by decide) (by decide) (by decide) (by decide)⟩

/-- C10: the auth relay's upstream request is a GET with no body, built
from the issuer URL and the inbound headers only — independent of the
inbound method and body — and its query carries the `service` parameter
and, when a non-empty `scope` is present on the inbound request, the
`scope` parameter. -/
theorem authRelayGetNoBody :
    (∀ (m m2 : JStr) (b b2 sv sc : Option JStr) (h : Headers),
      handleAuthAction m b sv sc h = handleAuthAction m2 b2 sv sc h) ∧
    (∀ (m : JStr) (b : Option JStr) (s : JStr) (sc : Option JStr) (h : Headers)
      (issuer : JStr), s ≠ [] → lookupMap AUTH_REALMS s = some issuer →
      ∃ q : List (JStr × JStr),
        handleAuthAction m b (some s) sc h = .relay ⟨"GET".data, issuer, q, h, none⟩ ∧
        lookupAssoc q ("service".data) = some s ∧
        (∀ v : JStr, sc = some v → v ≠ [] →
          lookupAssoc q ("scope".data) = some v)) := by
  constructor
  · intro m m2 b b2 sv sc h
    rfl
  · intro m b s sc h issuer hs hl
    have hj : jsIndex AUTH_REALMS s = .str issuer := jsIndex_of_lookup_some hl
    refine ⟨(match sc with
        | some v => if v = [] then [] else [("scope".data, v)]
        | none => []) ++ [("service".data, s)], ?_, ?_, ?_⟩
    · simp only [handleAuthAction, if_neg hs, hj]
    · rcases sc with _ | v
      · rfl
      · by_cases hv : v = []
        · show lookupAssoc ((if v = [] then [] else [("scope".data, v)]) ++ _) _ = _
          rw [if_pos hv]
          rfl
        · show lookupAssoc ((if v = [] then [] else [("scope".data, v)]) ++ _) _ = _
          rw [if_neg hv]
          unfold lookupAssoc
          rw [show ([("scope".data, v)] ++ [("service".data, s)] : List (JStr × JStr)) =
            [("scope".data, v), ("service".data, s)] from rfl]
          rw [find?_cons_false _ _ _ (by rfl), find?_cons_true _ _ _ (by rfl)]
          rfl
    · intro v hsc hv
      subst hsc
      show lookupAssoc ((if v = [] then [] else [("scope".data, v)]) ++ _) _ = _
      rw [if_neg hv]
      unfold lookupAssoc
      rw [show ([("scope".data, v)] ++ [("service".data, s)] : List (JStr × JStr)) =
        [("scope".data, v), ("service".data, s)] from rfl]
      rw [find?_cons_true _ _ _ (by rfl)]
      rfl

/-- Witness for C10: a PUT with a body is still relayed as a GET without
one, with service and scope attached to the issuer URL. -/
theorem authRelayGetNoBody_witness :
    ∃ q : List (JStr × JStr),
      handleAuthAction ("PUT".data) (some ("ignored-body".data))
          (some ("registry.docker.io".data))
          (some ("repository:library/ubuntu:pull".data)) [] =
        .relay ⟨"GET".data, "https://auth.docker.io/token".data, q, [], none⟩ ∧
      lookupAssoc q ("service".data) = some ("registry.docker.io".data) ∧
      (∀ v : JStr, some ("repository:library/ubuntu:pull".data) = some v → v ≠ [] →
        lookupAssoc q ("scope".data) = some v) :=
  authRelayGetNoBody.2 _ _ _ _ _ _ (by decide) (by decide)

end DockerProxy
